import Mathlib

/-!
Verification of the logbook-service ingestion pipeline against its
natural-language specification.

The Go sources are shallowly embedded: Go strings become lists of Unicode
code points (`GoStr`), Go ints become `Nat` (all modelled quantities are row
indices, counts and pixel values, which are non-negative in every reachable
use; where the Go code computes a possibly-negative int difference the
embedding computes in `Int`), and database or object-store effects become
explicit result records.  External collaborators (image decoding, JPEG
encoding, the model providers, S3, SQS) are modelled as inputs or abstract
outputs; the claims verified here do not depend on their byte-level
behaviour.
-/

namespace Logbook

/-- Go strings, as lists of Unicode code points.  Go stores UTF-8 bytes, but
every string function modelled here (ToUpper, TrimSpace, ReplaceAll on a
single rune, Contains) operates rune-wise, so the rune-list view is faithful. -/
abbrev GoStr := List Nat

/-- Build a `GoStr` from a Lean string literal. -/
def gs (s : String) : GoStr := s.data.map Char.toNat

/-- The Latin-1 fragment of Go unicode.IsSpace: tab, newline, vertical tab,
form feed, carriage return, space, NEL, NBSP.  (Go also recognises the
higher Unicode space classes; no claim here depends on them.) -/
def isGoSpace (n : Nat) : Bool :=
  n == 9 || n == 10 || n == 11 || n == 12 || n == 13 || n == 32 || n == 133 || n == 160

/-- Go strings.TrimSpace: drop leading and trailing whitespace. -/
def goTrimSpace (s : GoStr) : GoStr :=
  ((s.dropWhile isGoSpace).reverse.dropWhile isGoSpace).reverse

/-- The ASCII fragment of the rune mapping applied by Go strings.ToUpper.
(Go also maps non-ASCII letters; the claims checked here involve the ASCII
behaviour only.) -/
def upperRune (n : Nat) : Nat :=
  if 97 ≤ n ∧ n ≤ 122 then n - 32 else n

/-- The ASCII fragment of the rune mapping applied by Go strings.ToLower. -/
def lowerRune (n : Nat) : Nat :=
  if 65 ≤ n ∧ n ≤ 90 then n + 32 else n

/-- Go strings.ToUpper. -/
def goToUpper (s : GoStr) : GoStr := s.map upperRune

/-- Go strings.ToLower. -/
def goToLower (s : GoStr) : GoStr := s.map lowerRune

/-- Go strings.ReplaceAll(s, c, "") for a single-rune pattern c: removing
every occurrence of the rune. -/
def goRemoveAll (c : Nat) (s : GoStr) : GoStr := s.filter (fun d => d != c)

/-- api/handler.go normalize: TrimSpace, ToUpper, then remove every hyphen
and every space. -/
def normalize (s : GoStr) : GoStr :=
  goRemoveAll 32 (goRemoveAll 45 (goToUpper (goTrimSpace s)))

/-- Go strings.Contains(s, sub): sub occurs as a contiguous run inside s. -/
def strContains (s sub : GoStr) : Bool :=
  (List.range (s.length + 1)).any fun i => (s.drop i).take sub.length == sub

/-- api/handler.go fuzzyMatch: after normalizing both sides, either string
contains the other. -/
def fuzzyMatch (extracted expected : GoStr) : Bool :=
  let a := normalize extracted
  let b := normalize expected
  strContains a b || strContains b a

/-- analyze adComplianceRec. -/
structure ADComplianceRec where
  adNumber : GoStr
  method : GoStr
  notes : GoStr
  deriving DecidableEq, Repr, Inhabited

/-- analyze partsActionRec.  The JSON-typed quantity field is abstracted to
an optional string (nil or some JSON scalar); no verified claim depends on
its value. -/
structure PartsActionRec where
  action : GoStr
  partName : GoStr
  partNumber : GoStr
  serialNumber : GoStr
  oldPartNumber : GoStr
  oldSerialNumber : GoStr
  quantity : Option GoStr
  notes : GoStr
  deriving DecidableEq, Repr, Inhabited

/-- analyze extractedEntry.  Fields declared `any` in Go (the time readings
and the confidence score, arbitrary JSON scalars passed through to the
database) are abstracted to optional strings. -/
structure ExtractedEntry where
  date : GoStr
  aircraftRegistration : GoStr
  aircraftSerial : GoStr
  aircraftMake : GoStr
  aircraftModel : GoStr
  hobbsTime : Option GoStr
  tachTime : Option GoStr
  flightTime : Option GoStr
  timeSinceOverhaul : Option GoStr
  shopName : GoStr
  shopAddress : GoStr
  shopPhone : GoStr
  repairStationNumber : GoStr
  mechanicName : GoStr
  mechanicCertificate : GoStr
  workOrderNumber : GoStr
  maintenanceNarrative : GoStr
  entryType : GoStr
  inspectionType : GoStr
  farReference : GoStr
  confidence : Option GoStr
  needsReview : Bool
  missingData : List GoStr
  extractionNotes : GoStr
  adCompliance : List ADComplianceRec
  partsActions : List PartsActionRec
  deriving DecidableEq, Repr, Inhabited

/-- A sample extracted entry used by concrete witnesses. -/
def sampleEntry : ExtractedEntry :=
  { date := gs "2024-01-15", aircraftRegistration := gs "N123AB",
    aircraftSerial := gs "12345", aircraftMake := gs "Cessna",
    aircraftModel := gs "172", hobbsTime := none, tachTime := none,
    flightTime := none, timeSinceOverhaul := none, shopName := [],
    shopAddress := [], shopPhone := [], repairStationNumber := [],
    mechanicName := [], mechanicCertificate := [], workOrderNumber := [],
    maintenanceNarrative := gs "Changed oil and filter", entryType := gs "maintenance",
    inspectionType := [], farReference := [], confidence := none,
    needsReview := false, missingData := [], extractionNotes := [],
    adCompliance := [], partsActions := [] }

/-- The authoritative aircraft identity loaded from the batch row. -/
structure ExpectedIdentity where
  registration : GoStr
  serialNumber : GoStr
  make : GoStr
  model : GoStr
  deriving DecidableEq, Repr, Inhabited

/-- Go fmt %q applied to the strings at hand: wrap in double quotes.  (The
escaping %q performs on special characters is not modelled; no claim
depends on the note text.) -/
def goQuote (s : GoStr) : GoStr := gs "\"" ++ s ++ gs "\""

/-- The mismatch note built by checkAircraftIdentity: the failed comparisons
joined with commas, in serial, make, model order. -/
def identityMismatchNote (entry : ExtractedEntry) (expected : ExpectedIdentity)
    (serialMatch makeMatch modelMatch : Bool) : GoStr :=
  gs "Aircraft identity mismatch: " ++ List.intercalate (gs ", ")
    ((if !serialMatch then
        [gs "serial " ++ goQuote entry.aircraftSerial ++ gs " != " ++ goQuote expected.serialNumber]
      else []) ++
     (if !makeMatch then
        [gs "make " ++ goQuote entry.aircraftMake ++ gs " !~ " ++ goQuote expected.make]
      else []) ++
     (if !modelMatch then
        [gs "model " ++ goQuote entry.aircraftModel ++ gs " !~ " ++ goQuote expected.model]
      else []))

/-- The serialMatch local of checkAircraftIdentity: normalized equality. -/
def serialMatchOf (entry : ExtractedEntry) (expected : ExpectedIdentity) : Bool :=
  normalize entry.aircraftSerial == normalize expected.serialNumber

/-- The makeMatch local of checkAircraftIdentity: fuzzy comparison, skipped
(held at true) when either side is empty. -/
def makeMatchOf (entry : ExtractedEntry) (expected : ExpectedIdentity) : Bool :=
  if entry.aircraftMake ≠ [] ∧ expected.make ≠ [] then
    fuzzyMatch entry.aircraftMake expected.make
  else true

/-- The modelMatch local of checkAircraftIdentity. -/
def modelMatchOf (entry : ExtractedEntry) (expected : ExpectedIdentity) : Bool :=
  if entry.aircraftModel ≠ [] ∧ expected.model ≠ [] then
    fuzzyMatch entry.aircraftModel expected.model
  else true

/-- api/handler.go checkAircraftIdentity, as a pure function on the entry
(the Go code mutates the entry through a pointer). -/
def checkAircraftIdentity (entry : ExtractedEntry) (expected : ExpectedIdentity) :
    ExtractedEntry :=
  if expected.serialNumber = [] then entry
  else if entry.aircraftSerial = [] then entry
  else
    if !serialMatchOf entry expected ||
        (!makeMatchOf entry expected && !modelMatchOf entry expected) then
      { entry with
          needsReview := true
          extractionNotes :=
            entry.extractionNotes ++
              identityMismatchNote entry expected (serialMatchOf entry expected)
                (makeMatchOf entry expected) (modelMatchOf entry expected)
          missingData := entry.missingData ++ [gs "aircraft_identity_mismatch"] }
    else entry

/-- api/handler.go legacyInspectionMap. -/
def legacyInspectionMap (s : GoStr) : Option GoStr :=
  if s = gs "annual" then some (gs "annual")
  else if s = gs "100hr" then some (gs "100hr")
  else if s = gs "progressive" then some (gs "progressive")
  else if s = gs "altimeter_check" then some (gs "altimeter_static")
  else if s = gs "transponder_check" then some (gs "transponder")
  else none

/-- api/handler.go validEntryTypes. -/
def validEntryTypes (s : GoStr) : Bool :=
  s == gs "maintenance" || s == gs "inspection" || s == gs "ad_compliance" || s == gs "other"

/-- api/handler.go validActionTypes. -/
def validActionTypes (s : GoStr) : Bool :=
  s == gs "installed" || s == gs "removed" || s == gs "replaced" ||
    s == gs "repaired" || s == gs "inspected" || s == gs "overhauled"

/-- api/handler.go actionTypeMap. -/
def actionTypeMap (s : GoStr) : Option GoStr :=
  if s = gs "reinstalled" then some (gs "installed")
  else if s = gs "serviced" then some (gs "repaired")
  else if s = gs "applied" then some (gs "installed")
  else if s = gs "adjusted" then some (gs "repaired")
  else if s = gs "cleaned" then some (gs "repaired")
  else if s = gs "tested" then some (gs "inspected")
  else if s = gs "calibrated" then some (gs "inspected")
  else if s = gs "lubricated" then some (gs "repaired")
  else none

/-- api/handler.go validComplianceMethods. -/
def validComplianceMethods (s : GoStr) : Bool :=
  s == gs "inspection" || s == gs "replacement" || s == gs "modification" ||
    s == gs "terminating_action" || s == gs "recurring" || s == gs "not_applicable" ||
    s == gs "other"

/-- api/handler.go validInspectionTypes. -/
def validInspectionTypes (s : GoStr) : Bool :=
  s == gs "annual" || s == gs "100hr" || s == gs "50hr" || s == gs "progressive" ||
    s == gs "altimeter_static" || s == gs "transponder" || s == gs "elt" || s == gs "other"

/-- First step of normalizeEntryType: an empty entry type becomes
maintenance. -/
def entryTypeDefault (entry : ExtractedEntry) : ExtractedEntry :=
  if entry.entryType = [] then { entry with entryType := gs "maintenance" } else entry

/-- Second step of normalizeEntryType: rewrite a legacy inspection alias to
entry type inspection with the mapped inspection type, or give a bare
inspection an inspection type of other. -/
def entryTypeLegacy (entry : ExtractedEntry) : ExtractedEntry :=
  match legacyInspectionMap entry.entryType with
  | some mapped => { entry with inspectionType := mapped, entryType := gs "inspection" }
  | none =>
      if entry.entryType = gs "inspection" ∧ entry.inspectionType = [] then
        { entry with inspectionType := gs "other" }
      else entry

/-- api/handler.go normalizeEntryType, as a pure function (the Go code
mutates the entry through a pointer): default, legacy rewrite, then the
whitelist check sending anything unrecognized to other. -/
def normalizeEntryType (entry : ExtractedEntry) : ExtractedEntry :=
  if !validEntryTypes (entryTypeLegacy (entryTypeDefault entry)).entryType then
    { entryTypeLegacy (entryTypeDefault entry) with entryType := gs "other" }
  else entryTypeLegacy (entryTypeDefault entry)

/-- The maintenance_entries row inserted by saveEntry (column values in
declaration order; the generated id is outside the model). -/
structure EntryRow where
  aircraftID : GoStr
  pageID : GoStr
  entryType : GoStr
  entryDate : GoStr
  hobbsTime : Option GoStr
  tachTime : Option GoStr
  flightTime : Option GoStr
  timeSinceOverhaul : Option GoStr
  shopName : GoStr
  shopAddress : GoStr
  shopPhone : GoStr
  repairStationNumber : GoStr
  mechanicName : GoStr
  mechanicCertificate : GoStr
  workOrderNumber : GoStr
  maintenanceNarrative : GoStr
  confidenceScore : Option GoStr
  needsReview : Bool
  missingData : Option (List GoStr)
  deriving DecidableEq, Repr

/-- A parts_actions row inserted by saveEntry, referencing the new entry. -/
structure PartsRow where
  actionType : GoStr
  partName : GoStr
  partNumber : GoStr
  serialNumber : GoStr
  oldPartNumber : GoStr
  oldSerialNumber : GoStr
  quantity : Option GoStr
  notes : GoStr
  deriving DecidableEq, Repr

/-- An ad_compliance row inserted by saveEntry. -/
structure ADRow where
  adNumber : GoStr
  complianceDate : GoStr
  complianceMethod : GoStr
  notes : GoStr
  deriving DecidableEq, Repr

/-- An inspection_records row inserted by saveEntry. -/
structure InspRow where
  inspectionType : GoStr
  inspectionDate : GoStr
  aircraftHours : Option GoStr
  farReference : GoStr
  inspectorName : GoStr
  inspectorCertificate : GoStr
  deriving DecidableEq, Repr

/-- A maintenance_embeddings row upserted by generateEmbedding (the vector
itself comes from the embedding model, outside the embedding). -/
structure EmbRow where
  chunkType : GoStr
  chunkText : GoStr
  deriving DecidableEq, Repr

/-- Database writes and outcome of one saveEntry call.  ok mirrors a nil Go
error return. -/
structure SaveEffect where
  entryRow : Option EntryRow
  partsRows : List PartsRow
  adRows : List ADRow
  inspRows : List InspRow
  embRows : List EmbRow
  ok : Bool
  deriving DecidableEq, Repr

/-- The action-type normalization of the parts-action loop in saveEntry. -/
def normalizeAction (a : GoStr) : GoStr :=
  let a1 := if a = [] then gs "installed" else a
  if !validActionTypes a1 then
    match actionTypeMap a1 with
    | some mapped => mapped
    | none => gs "installed"
  else a1

/-- api/handler.go saveEntry, with the database modelled as succeeding on
every insert (the claims verified here concern which rows are written, not
infrastructure failures). -/
def saveEntry (aircraftID pageID : GoStr) (entry0 : ExtractedEntry) : SaveEffect :=
  let entry := normalizeEntryType entry0
  if entry.date = [] then
    { entryRow := none, partsRows := [], adRows := [], inspRows := [], embRows := [], ok := true }
  else
    let missing : Option (List GoStr) :=
      if entry.missingData.length > 0 then some entry.missingData else none
    let row : EntryRow :=
      { aircraftID := aircraftID, pageID := pageID, entryType := entry.entryType,
        entryDate := entry.date, hobbsTime := entry.hobbsTime, tachTime := entry.tachTime,
        flightTime := entry.flightTime, timeSinceOverhaul := entry.timeSinceOverhaul,
        shopName := entry.shopName, shopAddress := entry.shopAddress,
        shopPhone := entry.shopPhone, repairStationNumber := entry.repairStationNumber,
        mechanicName := entry.mechanicName, mechanicCertificate := entry.mechanicCertificate,
        workOrderNumber := entry.workOrderNumber,
        maintenanceNarrative := entry.maintenanceNarrative,
        confidenceScore := entry.confidence, needsReview := entry.needsReview,
        missingData := missing }
    let parts := entry.partsActions.map fun part =>
      { actionType := normalizeAction part.action, partName := part.partName,
        partNumber := part.partNumber, serialNumber := part.serialNumber,
        oldPartNumber := part.oldPartNumber, oldSerialNumber := part.oldSerialNumber,
        quantity := some (part.quantity.getD (gs "1")), notes := part.notes : PartsRow }
    let ads := entry.adCompliance.map fun ad =>
      { adNumber := ad.adNumber, complianceDate := entry.date,
        complianceMethod :=
          if ad.method ≠ [] ∧ !validComplianceMethods ad.method then gs "other" else ad.method,
        notes := ad.notes : ADRow }
    let insp :=
      if entry.inspectionType ≠ [] then
        [{ inspectionType :=
             if !validInspectionTypes entry.inspectionType then gs "other"
             else entry.inspectionType,
           inspectionDate := entry.date, aircraftHours := entry.flightTime,
           farReference := entry.farReference, inspectorName := entry.mechanicName,
           inspectorCertificate := entry.mechanicCertificate : InspRow }]
      else []
    let embs :=
      if entry.maintenanceNarrative.length > 10 then
        [{ chunkType := gs "narrative", chunkText := entry.maintenanceNarrative : EmbRow }]
      else []
    { entryRow := some row, partsRows := parts, adRows := ads, inspRows := insp,
      embRows := embs, ok := true }

/-- upload_batches.processing_status values. -/
inductive BatchStatus where
  | pending
  | processing
  | completed
  | completedWithErrors
  | failed
  deriving DecidableEq, Repr, Inhabited

/-- A batch status is terminal when no further pipeline work is expected. -/
def BatchStatus.isTerminal : BatchStatus → Bool
  | .completed => true
  | .completedWithErrors => true
  | .failed => true
  | _ => false

/-- upload_pages.extraction_status values. -/
inductive PageStatus where
  | pending
  | processing
  | completed
  | failed
  | skipped
  deriving DecidableEq, Repr, Inhabited

/-- api/handler.go (analyze) checkBatchCompletion: the aggregate query over
the pages of the batch followed by the conditional status write.  The
returned value is the status written; none means the batch row is left
unchanged. -/
def checkBatchCompletion (pages : List PageStatus) : Option BatchStatus :=
  let total := pages.length
  let done := pages.countP fun s => s == PageStatus.completed || s == PageStatus.skipped
  let failedN := pages.countP fun s => s == PageStatus.failed
  if 0 < total ∧ done + failedN = total then
    some (if failedN = 0 then BatchStatus.completed
          else if done = 0 then BatchStatus.failed
          else BatchStatus.completedWithErrors)
  else none

/-- Go filepath.Ext: scan backwards to the first dot before any path
separator; return from the dot on, or empty if none. -/
def goExtAux : List Nat → GoStr → GoStr
  | [], _ => []
  | c :: rest, acc =>
      if c = 47 then []
      else if c = 46 then 46 :: acc
      else goExtAux rest (c :: acc)

/-- Go filepath.Ext. -/
def goExt (s : GoStr) : GoStr := goExtAux s.reverse []

/-- api/handler.go pdfExtensions. -/
def pdfExtension (e : GoStr) : Bool := e == gs ".pdf"

/-- api/handler.go imageExtensions. -/
def imageExtension (e : GoStr) : Bool :=
  [gs ".jpg", gs ".jpeg", gs ".png", gs ".gif", gs ".bmp", gs ".tiff", gs ".tif",
   gs ".heic", gs ".heif"].contains e

/-- One file of an upload request. -/
structure UploadFile where
  filename : GoStr
  deriving DecidableEq, Repr, Inhabited

/-- The lowercased extension used to classify an upload file. -/
def fileExt (f : UploadFile) : GoStr := goToLower (goExt f.filename)

/-- The POST /uploads request body. -/
structure UploadRequest where
  tailNumber : GoStr
  logType : GoStr
  files : List UploadFile
  deriving DecidableEq, Repr

/-- Go fmt %04d: decimal with zero padding to at least four digits. -/
def pad4 (n : Nat) : GoStr :=
  let s := toString n
  gs (String.mk (List.replicate (4 - s.length) (Char.ofNat 48) ++ s.data))

/-- The upload_batches row inserted by Intake. -/
structure BatchRow where
  aircraftRegistration : GoStr
  logbookType : GoStr
  uploadType : String
  sourceFilename : GoStr
  s3Key : Option GoStr
  pageCount : Option Nat
  processingStatus : BatchStatus
  deriving DecidableEq, Repr

/-- An upload_pages row inserted by Intake for a multi-image upload. -/
structure PageInsert where
  pageNumber : Nat
  imagePath : GoStr
  extractionStatus : PageStatus
  deriving DecidableEq, Repr

/-- Outcome of one handleUpload call: HTTP status, error message if any,
and the rows written.  Presigned URLs and the FAA enrichment are external
effects outside the embedding. -/
structure IntakeResult where
  status : Nat
  errMsg : Option String
  batch : Option BatchRow
  pages : List PageInsert
  deriving DecidableEq, Repr

/-- An errResponse(400, msg) with no rows written. -/
def err400 (msg : String) : IntakeResult :=
  { status := 400, errMsg := some msg, batch := none, pages := [] }

/-- api/handler.go handlePDFUpload (the generated batch id is passed in,
modelling newUUID). -/
def handlePDFUploadIntake (batchID tail logType : GoStr) (f : UploadFile) : IntakeResult :=
  let filename := if f.filename = [] then gs "logbook.pdf" else f.filename
  let s3Key := gs "uploads/" ++ batchID ++ gs "/" ++ filename
  { status := 200, errMsg := none,
    batch := some
      { aircraftRegistration := tail, logbookType := logType, uploadType := "pdf",
        sourceFilename := filename, s3Key := some s3Key, pageCount := none,
        processingStatus := BatchStatus.pending },
    pages := [] }

/-- api/handler.go handleMultiImageUpload.  files is non-empty whenever this
path is reached; headD models the files[0] access. -/
def handleMultiImageUploadIntake (batchID tail logType : GoStr)
    (files : List UploadFile) : IntakeResult :=
  let pageCount := files.length
  let sourceName :=
    if pageCount > 1 then gs (toString pageCount ++ " images")
    else (files.headD { filename := [] }).filename
  let pages := files.enum.map fun p =>
    let pageNum := p.1 + 1
    let filename :=
      if p.2.filename = [] then gs "page_" ++ pad4 pageNum ++ gs ".jpg" else p.2.filename
    let ext := goToLower (goExt filename)
    { pageNumber := pageNum,
      imagePath := gs "pages/" ++ batchID ++ gs "/page_" ++ pad4 pageNum ++ ext,
      extractionStatus := PageStatus.pending : PageInsert }
  { status := 200, errMsg := none,
    batch := some
      { aircraftRegistration := tail, logbookType := logType, uploadType := "multi_image",
        sourceFilename := sourceName, s3Key := none, pageCount := some pageCount,
        processingStatus := BatchStatus.pending },
    pages := pages }

/-- api/handler.go handleUpload: validation, classification by extension,
then dispatch to the PDF or multi-image path. -/
def handleUpload (batchID : GoStr) (req : UploadRequest) : IntakeResult :=
  let tail := goToUpper (goTrimSpace req.tailNumber)
  if tail = [] then err400 "tailNumber is required"
  else if req.files.length = 0 then err400 "files array is required"
  else if req.files.length > 500 then err400 "Maximum 500 files per upload"
  else
    let pdfFiles := req.files.filter fun f => pdfExtension (fileExt f)
    let imgFiles := req.files.filter fun f => !pdfExtension (fileExt f) && imageExtension (fileExt f)
    if pdfFiles.length > 0 ∧ imgFiles.length > 0 then
      err400 "Cannot mix PDF and image files in one upload"
    else if pdfFiles.length = 0 ∧ imgFiles.length = 0 then
      err400 "Files must be PDF (.pdf) or images (.jpg, .jpeg, .png, etc.)"
    else if pdfFiles.length > 1 then err400 "Only one PDF per upload"
    else
      match pdfFiles with
      | f :: _ => handlePDFUploadIntake batchID tail req.logType f
      | [] => handleMultiImageUploadIntake batchID tail req.logType imgFiles

/-- Database state of one batch: its processing status and its pages
(page number paired with extraction status). -/
structure BatchState where
  batch : BatchStatus
  pages : List (Nat × PageStatus)
  deriving DecidableEq, Repr

/-- Look up a page row by page number. -/
def lookupPage (pages : List (Nat × PageStatus)) (n : Nat) : Option PageStatus :=
  (pages.find? fun p => p.1 == n).map (fun p => p.2)

/-- Update the extraction status of the page row with the given number. -/
def setPage (pages : List (Nat × PageStatus)) (n : Nat) (st : PageStatus) :
    List (Nat × PageStatus) :=
  pages.map fun p => if p.1 = n then (p.1, st) else p

/-- Sequential INSERT of page rows 1..n by the Split PDF path.  A duplicate
page number violates the (document_id, page_number) uniqueness of
upload_pages, aborting the handler with the rows inserted so far kept
(each insert is a separate statement). -/
def insertPagesAux (pages : List (Nat × PageStatus)) : List Nat → List (Nat × PageStatus)
  | [] => pages
  | n :: rest =>
      if pages.any (fun p => p.1 == n) then pages
      else insertPagesAux (pages ++ [(n, PageStatus.pending)]) rest

/-- One event-driven step of the pipeline touching a single batch:
an object-create event under uploads/ (Split PDF or single-image path,
with the fetch, extension dispatch and rasterize outcomes as inputs),
an object-create event under pages/ (Split page-arrival path), or the
Analyze worker finishing one page (ok mirrors a nil processPage error). -/
inductive PipeStep where
  | pdfUpload (fetchOk extSupported processOk : Bool) (pageCount : Nat)
  | pageArrival (pageNumber : Nat)
  | analyzePage (pageNumber : Nat) (ok : Bool)
  deriving DecidableEq, Repr

/-- Whether the step is an uploads/ object event (Split PDF path). -/
def PipeStep.isUploadEvent : PipeStep → Bool
  | .pdfUpload .. => true
  | _ => false

/-- split/handler.go and the analyze page worker, as a transition on the
batch state.  The PDF path sets processing unconditionally, then failed on
a fatal error; the page-arrival path sets processing only from pending;
the analyze worker marks the page and, on success, runs the completion
rollup (a failed page is marked by the Handle wrapper without a rollup). -/
def applyStep (s : BatchState) : PipeStep → BatchState
  | .pdfUpload fetchOk extSupported processOk n =>
      let s1 : BatchState := { s with batch := BatchStatus.processing }
      if !fetchOk then { s1 with batch := BatchStatus.failed }
      else if !extSupported then { s1 with batch := BatchStatus.failed }
      else if !processOk then { s1 with batch := BatchStatus.failed }
      else { s1 with pages := insertPagesAux s1.pages (List.range' 1 n) }
  | .pageArrival n =>
      match lookupPage s.pages n with
      | none => s
      | some _ =>
          { s with batch := if s.batch = BatchStatus.pending then BatchStatus.processing
                            else s.batch }
  | .analyzePage n ok =>
      match lookupPage s.pages n with
      | none => s
      | some _ =>
          if ok then
            let pages2 := setPage s.pages n PageStatus.completed
            { batch := (checkBatchCompletion (pages2.map (fun p => p.2))).getD s.batch,
              pages := pages2 }
          else { s with pages := setPage s.pages n PageStatus.failed }

/-- A batch history: fold the steps over the state. -/
def applySteps (s : BatchState) (steps : List PipeStep) : BatchState :=
  steps.foldl applyStep s

/-- The state of a freshly created PDF upload batch (Intake inserts it with
processing_status pending and no page rows). -/
def initialPDFBatch : BatchState := { batch := BatchStatus.pending, pages := [] }

/-- slicer Options (the scaled-parameter slicer version the claims cite).
The Go fields are ints; every value reaching them in this program is
non-negative (DefaultOptions and its height-scaling), so they are
modelled as Nat. -/
structure SlicerOptions where
  darknessThreshold : Nat
  dilationRadius : Nat
  minGapHeight : Nat
  minSliceHeight : Nat
  padding : Nat
  jpegQuality : Nat
  deriving DecidableEq, Repr

/-- slicer DefaultOptions (calibrated for the 3024 px reference height). -/
def DefaultOptions : SlicerOptions :=
  { darknessThreshold := 128, dilationRadius := 80, minGapHeight := 10,
    minSliceHeight := 150, padding := 15, jpegQuality := 85 }

/-- slicer referenceHeight. -/
def referenceHeight : Nat := 3024

/-- slicer scaleToHeight: scale the spatial parameters proportionally from
the reference height, clamping positive values to at least 1.  The Go guard
height <= 0 becomes height = 0 on Nat. -/
def scaleToHeight (opts : SlicerOptions) (height : Nat) : SlicerOptions :=
  if height = 0 ∨ height = referenceHeight then opts
  else
    let scale := fun v : Nat =>
      let s := v * height / referenceHeight
      if s < 1 ∧ v > 0 then 1 else s
    { opts with
        dilationRadius := scale opts.dilationRadius,
        minGapHeight := scale opts.minGapHeight,
        minSliceHeight := scale opts.minSliceHeight,
        padding := scale opts.padding }

/-- A decoded image: dimensions plus the 16-bit RGB channels returned by
the Go image RGBA accessor at each pixel (bounds minimum normalized to the
origin; alpha is unused by the slicer). -/
structure GoImage where
  width : Nat
  height : Nat
  pixel : Nat → Nat → Nat × Nat × Nat

/-- The BT.601 luma computed by projectionProfile: channels shifted to
8 bits, weighted, rounded, shifted down and truncated to uint8. -/
def lumaAt (img : GoImage) (x y : Nat) : Nat :=
  let p := img.pixel x y
  (19595 * (p.1 / 256) + 38470 * (p.2.1 / 256) + 7471 * (p.2.2 / 256) + 2 ^ 15) / 2 ^ 16 % 256

/-- slicer projectionProfile: dark-pixel count per row. -/
def projectionProfile (img : GoImage) (threshold : Nat) : List Nat :=
  (List.range img.height).map fun y =>
    (List.range img.width).countP fun x => decide (lumaAt img x y < threshold)

/-- Step 2 of SliceImage: subtract the noise floor of 7 percent of the
width from every row, clamping at zero. -/
def subtractNoiseFloor (width : Nat) (profile : List Nat) : List Nat :=
  let noiseFloor := width * 7 / 100
  profile.map fun v => if v > noiseFloor then v - noiseFloor else 0

/-- The prefix-sum table built by smoothProfile (entry 0 is 0). -/
def csum (l : List Nat) : List Nat := l.scanl (fun a b => a + b) 0

/-- slicer smoothProfile: moving average over the window
[i - radius, i + radius] clamped to the list, computed from prefix sums. -/
def smoothProfile (profile : List Nat) (radius : Nat) : List Nat :=
  let n := profile.length
  if n = 0 then profile
  else
    let pre := csum profile
    (List.range n).map fun i =>
      let lo := i - radius
      let hi := min (i + radius) (n - 1)
      let w := hi - lo + 1
      (pre.getD (hi + 1) 0 - pre.getD lo 0) / w

/-- The row scan of findRegions: maximal runs of rows whose value exceeds
the content threshold, carrying the current run start.  The list argument
is the profile suffix from row y on; a run still open at the end closes at
the total height. -/
def scanRegionsAux (thr : Nat) : List Nat → Nat → Option Nat → List (Nat × Nat)
  | [], _, none => []
  | [], y, some s => [(s, y)]
  | v :: rest, y, none =>
      if v > thr then scanRegionsAux thr rest (y + 1) (some y)
      else scanRegionsAux thr rest (y + 1) none
  | v :: rest, y, some s =>
      if v > thr then scanRegionsAux thr rest (y + 1) (some s)
      else (s, y) :: scanRegionsAux thr rest (y + 1) none

/-- The merge loop of mergeRegions, carrying the currently merged region.
The gap is a Go int difference, computed in Int. -/
def mergeRegionsAux (minGap : Int) (cur : Nat × Nat) : List (Nat × Nat) → List (Nat × Nat)
  | [] => [cur]
  | r :: rest =>
      if (r.1 : Int) - (cur.2 : Int) < minGap then mergeRegionsAux minGap (cur.1, r.2) rest
      else cur :: mergeRegionsAux minGap r rest

/-- slicer mergeRegions. -/
def mergeRegions (regions : List (Nat × Nat)) (minGap : Int) : List (Nat × Nat) :=
  match regions with
  | [] => []
  | r :: rest => mergeRegionsAux minGap r rest

/-- slicer findRegions (scaled version): content runs above the threshold,
then gap merging.  The Go loop runs y over 0..height-1 indexing the
profile, whose length is the height. -/
def findRegions (prof : List Nat) (minGapHeight contentThreshold : Nat) : List (Nat × Nat) :=
  mergeRegions (scanRegionsAux contentThreshold prof 0 none) (minGapHeight : Int)

/-- The gap between regions at indices a and b of the list (Go int
difference). -/
def regionGap (rs : List (Nat × Nat)) (a b : Nat) : Int :=
  ((rs.getD b (0, 0)).1 : Int) - ((rs.getD a (0, 0)).2 : Int)

/-- The search loop of absorbSmallRegions: the first index attaining the
smallest height among regions strictly below minHeight (heights are Go int
differences). -/
def findSmallAux (minHeight : Int) :
    List (Nat × Nat) → Nat → Option (Nat × Int) → Option (Nat × Int)
  | [], _, acc => acc
  | r :: rest, i, acc =>
      let h : Int := (r.2 : Int) - (r.1 : Int)
      let acc2 :=
        match acc with
        | none => if h < minHeight then some (i, h) else none
        | some q => if h < minHeight ∧ h < q.2 then some (i, h) else acc
      findSmallAux minHeight rest (i + 1) acc2

/-- The index of the smallest too-small region, if any. -/
def findSmallIdx (rs : List (Nat × Nat)) (minHeight : Int) : Option Nat :=
  (findSmallAux minHeight rs 0 none).map (fun p => p.1)

/-- The neighbour chosen by absorbSmallRegions: the adjacent region with
the smaller gap (left neighbour wins ties); the sole neighbour at either
end.  Only evaluated with i in range and at least two regions. -/
def mergeTarget (rs : List (Nat × Nat)) (i : Nat) : Nat :=
  if i = 0 then i + 1
  else if i + 1 < rs.length then
    (if regionGap rs i (i + 1) < regionGap rs (i - 1) i then i + 1 else i - 1)
  else i - 1

/-- The loop of absorbSmallRegions with an explicit iteration bound.  Each
pass merges two adjacent regions into one, shrinking the list by exactly
one, so a bound equal to the initial number of regions can never be
exhausted before the loop exits on its own (no small region left, or fewer
than two regions). -/
def absorbGo (minHeight : Int) : Nat → List (Nat × Nat) → List (Nat × Nat)
  | 0, rs => rs
  | fuel + 1, rs =>
      match findSmallIdx rs minHeight with
      | none => rs
      | some i =>
          if rs.length < 2 then rs
          else
            let j := mergeTarget rs i
            let lo := min i j
            let hi := max i j
            absorbGo minHeight fuel
              (rs.take lo ++ ((rs.getD lo (0, 0)).1, (rs.getD hi (0, 0)).2) :: rs.drop (hi + 1))

/-- slicer absorbSmallRegions. -/
def absorbSmallRegions (rs : List (Nat × Nat)) (minHeight : Int) : List (Nat × Nat) :=
  absorbGo minHeight rs.length rs

/-- A slice of the page: its dense index and crop rows.  The ImageData
field of the Go struct is the JPEG encoding of rows y0..y1, produced by
the external encoder; its bytes are outside the embedding. -/
structure GoSlice where
  index : Nat
  y0 : Nat
  y1 : Nat
  deriving DecidableEq, Repr

/-- The crop loop of SliceImage: pad each region (the Go code clamps the
padded start at 0, which is Nat subtraction, and the padded end at the
height), skip paddings shorter than MinSliceHeight (Go int comparison,
taken in Int), and index the kept slices densely from idx. -/
def cropSlicesAux (pad minSlice height : Nat) :
    List (Nat × Nat) → Nat → List GoSlice
  | [], _ => []
  | r :: rest, idx =>
      let y0 := r.1 - pad
      let y1 := min (r.2 + pad) height
      if (y1 : Int) - (y0 : Int) < (minSlice : Int) then
        cropSlicesAux pad minSlice height rest idx
      else { index := idx, y0 := y0, y1 := y1 } :: cropSlicesAux pad minSlice height rest (idx + 1)

/-- The smoothed page profile of SliceImage (steps 1 to 3): projection
profile at the darkness threshold, noise floor subtraction, moving
average at the scaled dilation radius. -/
def pageSmoothed (img : GoImage) (opts0 : SlicerOptions) : List Nat :=
  smoothProfile
    (subtractNoiseFloor img.width
      (projectionProfile img (scaleToHeight opts0 img.height).darknessThreshold))
    (scaleToHeight opts0 img.height).dilationRadius

/-- The regions of SliceImage surviving segmentation (steps 4 to 6):
content threshold of one percent of the width, gap merging at the scaled
minimum gap, then absorption of regions below one eighth of the height. -/
def survivingRegions (img : GoImage) (opts0 : SlicerOptions) : List (Nat × Nat) :=
  absorbSmallRegions
    (findRegions (pageSmoothed img opts0) (scaleToHeight opts0 img.height).minGapHeight
      (img.width / 100))
    ((img.height / 8 : Nat) : Int)

/-- The crop loop of SliceImage over the surviving regions, with the
scaled padding and minimum slice height. -/
def keptSlices (img : GoImage) (opts0 : SlicerOptions) : List GoSlice :=
  cropSlicesAux (scaleToHeight opts0 img.height).padding
    (scaleToHeight opts0 img.height).minSliceHeight img.height
    (survivingRegions img opts0) 0

/-- slicer SliceImage after a successful decode: region extraction, then
the crop loop, falling back to one full-page slice when fewer than two
regions survive or every crop is discarded.  JPEG encoding is external
and, modelled as succeeding, never turns a computed slice list into an
error. -/
def sliceImage (img : GoImage) (opts0 : SlicerOptions) : List GoSlice :=
  if (survivingRegions img opts0).length < 2 then [{ index := 0, y0 := 0, y1 := img.height }]
  else if keptSlices img opts0 = [] then [{ index := 0, y0 := 0, y1 := img.height }]
  else keptSlices img opts0

/-- Well-formed region lists: within the given height, each region is a
non-empty span, spans do not overlap and appear top to bottom, and every
start sits at or after the lower bound. -/
inductive RegChain (height : Nat) : Nat → List (Nat × Nat) → Prop where
  | nil (lb : Nat) : RegChain height lb []
  | cons (lb a b : Nat) (rest : List (Nat × Nat)) :
      lb ≤ a → a < b → b ≤ height → RegChain height b rest →
      RegChain height lb ((a, b) :: rest)

/-- An all-white test image used by the concrete witnesses. -/
def whiteImage : GoImage :=
  { width := 2, height := 4, pixel := fun _ _ => (65535, 65535, 65535) }

/-- analyze qaFieldIssue: one flagged field of the QA verdict. -/
structure QAFieldIssue where
  field : GoStr
  issue : GoStr
  expected : GoStr
  extracted : GoStr
  severity : GoStr
  deriving DecidableEq, Repr, Inhabited

/-- One per-entry verdict of the QA model. -/
structure QAEntryResult where
  entryIndex : Nat
  verdict : GoStr
  issues : List QAFieldIssue
  summary : GoStr
  deriving DecidableEq, Repr, Inhabited

/-- The QA model response. -/
structure QAResult where
  results : List QAEntryResult
  deriving DecidableEq, Repr, Inhabited

/-- One extraction-model response: the page classification and the
extracted entries. -/
structure ExtractionResult where
  pageType : GoStr
  entries : List ExtractedEntry
  deriving DecidableEq, Repr, Inhabited

/-- Stands for the verbatim SliceExtractionPrompt constant of the analyze
prompts file.  Only its identity as the base prompt matters to the
verified claims; the full prompt text is not reproduced. -/
def sliceExtractionPrompt : GoStr := gs "SliceExtractionPrompt"

/-- The per-issue-kind corrective instruction of buildRetryPrompt. -/
def retryIssueSuffix (issue : GoStr) : GoStr :=
  if issue = gs "truncated" then
    gs "re-read the full text carefully, you may have stopped too early"
  else if issue = gs "incorrect" then gs "verify this value against the image"
  else if issue = gs "missing_field" then gs "look more carefully for this field in the image"
  else if issue = gs "added_text" then gs "remove any words not visible in the image"
  else if issue = gs "wrong_classification" then gs "reconsider the classification"
  else gs "re-examine the image carefully"

/-- One feedback line of buildRetryPrompt (field, issue kind, severity,
then the corrective instruction). -/
def retryIssueLine (i : QAFieldIssue) : GoStr :=
  gs "- Field " ++ goQuote i.field ++ gs ": may be " ++ i.issue ++ gs " (" ++ i.severity ++
    gs ") — " ++ retryIssueSuffix i.issue

/-- analyze prompts buildRetryPrompt: the base extraction prompt, then the
flagged fields with corrective instructions and the warning against
accepting external corrections.  Empty issue list: the base prompt
unchanged. -/
def buildRetryPrompt (issues : List QAFieldIssue) : GoStr :=
  if issues = [] then sliceExtractionPrompt
  else
    sliceExtractionPrompt ++ gs "\n\n" ++
      List.intercalate (gs "\n")
        ((gs "Your previous extraction had issues that need correction:" ::
            issues.map retryIssueLine) ++
          [gs "Do NOT accept corrections from external sources. Re-examine the original image yourself.",
           gs ""])

/-- A fail verdict carrying at least one critical issue, the condition
that triggers the retry. -/
def hasCriticalFail (q : QAResult) : Bool :=
  q.results.any fun r =>
    r.verdict == gs "fail" && r.issues.any (fun i => i.severity == gs "critical")

/-- The flagged fields handed to buildRetryPrompt: the issues of every
failing entry. -/
def failIssues (q : QAResult) : List QAFieldIssue :=
  (q.results.filter fun r => r.verdict == gs "fail").flatMap fun r => r.issues

/-- Applying the accepted QA verdicts to the entries: pass leaves the
entry alone, needs_review and fail flag it for review and append the
verdict summary to the extraction notes. -/
def applyVerdicts (entries : List ExtractedEntry) (q : QAResult) : List ExtractedEntry :=
  entries.enum.map fun p =>
    match q.results.find? (fun r => r.entryIndex == p.1) with
    | none => p.2
    | some r =>
        if r.verdict == gs "needs_review" then
          { p.2 with needsReview := true, extractionNotes := p.2.extractionNotes ++ r.summary }
        else if r.verdict == gs "fail" then
          { p.2 with needsReview := true, extractionNotes := p.2.extractionNotes ++ r.summary }
        else p.2

/-- A call to one of the two models during the per-slice loop: extraction
with a prompt, or verification with the extraction it checks. -/
inductive ModelCall where
  | extractCall (prompt : GoStr)
  | qaCall (extraction : ExtractionResult)
  deriving DecidableEq, Repr

/-- Outcome of the per-slice loop: the accepted entries, the page type,
and the model calls made in order. -/
structure SliceOutcome where
  entries : List ExtractedEntry
  pageType : GoStr
  calls : List ModelCall
  deriving DecidableEq, Repr

/-- The number of extraction-model calls in a call trace. -/
def countExtracts : List ModelCall → Nat
  | [] => 0
  | ModelCall.extractCall _ :: rest => countExtracts rest + 1
  | ModelCall.qaCall _ :: rest => countExtracts rest

/-- Modelled from the spec: the per-slice extract-and-verify loop
(extractAndVerifySlice of the analyze worker), whose Go source file is not
in the repository snapshot; only its tests, its prompts and
buildRetryPrompt are.  Following section 4.5 of the specification and the
behaviour pinned by the tests: extract with the base prompt (any failure
yields zero entries); an empty extraction skips QA; QA is called with the
extraction (primary model, falling back to the secondary; both failing
accepts the extraction unverified); a fail verdict with a critical issue
triggers exactly one retry extraction with the retry prompt; a critical
fail on the retry accepts the entries flagged needs_review; otherwise the
per-entry verdicts are applied.  The two models are inputs: extract maps
the prompt to the parsed extraction (none for network, empty or parse
failure) and qa maps the extraction to the combined QA outcome (none when
both QA models fail). -/
def extractAndVerifySlice (extract : GoStr → Option ExtractionResult)
    (qa : ExtractionResult → Option QAResult) : SliceOutcome :=
  match extract sliceExtractionPrompt with
  | none => { entries := [], pageType := [], calls := [ModelCall.extractCall sliceExtractionPrompt] }
  | some e1 =>
      if e1.entries = [] then
        { entries := [], pageType := e1.pageType,
          calls := [ModelCall.extractCall sliceExtractionPrompt] }
      else
        match qa e1 with
        | none =>
            { entries := e1.entries, pageType := e1.pageType,
              calls := [ModelCall.extractCall sliceExtractionPrompt, ModelCall.qaCall e1] }
        | some q1 =>
            if hasCriticalFail q1 = true then
              match extract (buildRetryPrompt (failIssues q1)) with
              | none =>
                  { entries := [], pageType := [],
                    calls := [ModelCall.extractCall sliceExtractionPrompt, ModelCall.qaCall e1,
                      ModelCall.extractCall (buildRetryPrompt (failIssues q1))] }
              | some e2 =>
                  if e2.entries = [] then
                    { entries := [], pageType := e2.pageType,
                      calls := [ModelCall.extractCall sliceExtractionPrompt, ModelCall.qaCall e1,
                        ModelCall.extractCall (buildRetryPrompt (failIssues q1))] }
                  else
                    match qa e2 with
                    | none =>
                        { entries := e2.entries, pageType := e2.pageType,
                          calls := [ModelCall.extractCall sliceExtractionPrompt,
                            ModelCall.qaCall e1,
                            ModelCall.extractCall (buildRetryPrompt (failIssues q1)),
                            ModelCall.qaCall e2] }
                    | some q2 =>
                        if hasCriticalFail q2 = true then
                          { entries := e2.entries.map (fun e => { e with needsReview := true }),
                            pageType := e2.pageType,
                            calls := [ModelCall.extractCall sliceExtractionPrompt,
                              ModelCall.qaCall e1,
                              ModelCall.extractCall (buildRetryPrompt (failIssues q1)),
                              ModelCall.qaCall e2] }
                        else
                          { entries := applyVerdicts e2.entries q2, pageType := e2.pageType,
                            calls := [ModelCall.extractCall sliceExtractionPrompt,
                              ModelCall.qaCall e1,
                              ModelCall.extractCall (buildRetryPrompt (failIssues q1)),
                              ModelCall.qaCall e2] }
            else
              { entries := applyVerdicts e1.entries q1, pageType := e1.pageType,
                calls := [ModelCall.extractCall sliceExtractionPrompt, ModelCall.qaCall e1] }

/-- The first extraction of the witness scenario: one entry with a
truncated narrative. -/
def wE1 : ExtractionResult :=
  { pageType := gs "maintenance_entry",
    entries := [{ sampleEntry with maintenanceNarrative := gs "partial" }] }

/-- The retry extraction of the witness scenario: the full narrative. -/
def wE2 : ExtractionResult :=
  { pageType := gs "maintenance_entry",
    entries := [{ sampleEntry with maintenanceNarrative := gs "full text here" }] }

/-- The critical truncation verdict of the witness scenario. -/
def wQ1 : QAResult :=
  { results :=
      [{ entryIndex := 0, verdict := gs "fail",
         issues :=
           [{ field := gs "maintenanceNarrative", issue := gs "truncated",
              expected := gs "full text here", extracted := gs "partial",
              severity := gs "critical" }],
         summary := gs "Narrative truncated" }] }

/-- The witness extraction model: the base prompt yields the truncated
extraction, any other prompt the corrected one. -/
def wExtract : GoStr → Option ExtractionResult :=
  fun p => if p = sliceExtractionPrompt then some wE1 else some wE2

/-- The witness QA model: every extraction fails with the critical
truncation issue. -/
def wQa : ExtractionResult → Option QAResult := fun _ => some wQ1

end Logbook

namespace Logbook

/-- Unfolding of the whitespace test into a plain disjunction. -/
theorem isGoSpace_iff (n : Nat) :
    isGoSpace n = true ↔
      n = 9 ∨ n = 10 ∨ n = 11 ∨ n = 12 ∨ n = 13 ∨ n = 32 ∨ n = 133 ∨ n = 160 := by
  simp only [isGoSpace, Bool.or_eq_true, beq_iff_eq]
  tauto

/-- The ASCII upper-casing map is idempotent. -/
theorem upperRune_idem (n : Nat) : upperRune (upperRune n) = upperRune n := by
  unfold upperRune
  split
  · rename_i h
    rw [if_neg (by omega)]
  · rfl

/-- Upper-casing never produces a whitespace rune that was not already
whitespace (lowercase ASCII letters are not whitespace, and their images
are uppercase ASCII letters). -/
theorem isGoSpace_upperRune (n : Nat) (h : isGoSpace (upperRune n) = true) :
    isGoSpace n = true ∧ upperRune n = n := by
  unfold upperRune at *
  split at h
  · rename_i hn
    rw [isGoSpace_iff] at h
    omega
  · rename_i hn
    exact ⟨h, if_neg hn⟩

/-- Membership is preserved from a trimmed string back into the original. -/
theorem mem_of_mem_goTrimSpace {c : Nat} {s : GoStr} (h : c ∈ goTrimSpace s) :
    c ∈ s := by
  unfold goTrimSpace at h
  rw [List.mem_reverse] at h
  have h1 := (List.dropWhile_sublist (p := isGoSpace)
    (l := (s.dropWhile isGoSpace).reverse)).mem h
  rw [List.mem_reverse] at h1
  exact (List.dropWhile_sublist (p := isGoSpace) (l := s)).mem h1

/-- dropWhile is the identity on a list none of whose elements satisfy the
predicate. -/
theorem dropWhile_eq_self_of_none {p : Nat → Bool} {l : List Nat}
    (h : ∀ c ∈ l, p c = false) : l.dropWhile p = l := by
  cases l with
  | nil => rfl
  | cons a t =>
    have := h a (by simp)
    simp [List.dropWhile, this]

/-- TrimSpace is the identity on a string with no whitespace runes. -/
theorem goTrimSpace_eq_self {s : GoStr} (h : ∀ c ∈ s, isGoSpace c = false) :
    goTrimSpace s = s := by
  unfold goTrimSpace
  rw [dropWhile_eq_self_of_none h]
  rw [dropWhile_eq_self_of_none (by intro c hc; exact h c (List.mem_reverse.mp hc))]
  exact List.reverse_reverse s

/-- Every rune of `normalize s` is the upper-casing of a rune of the trimmed
input, and is neither a hyphen nor a space. -/
theorem mem_normalize {c : Nat} {s : GoStr} (h : c ∈ normalize s) :
    (∃ d ∈ goTrimSpace s, c = upperRune d) ∧ c ≠ 45 ∧ c ≠ 32 := by
  unfold normalize goRemoveAll goToUpper at h
  rw [List.mem_filter] at h
  obtain ⟨h1, hc32⟩ := h
  rw [List.mem_filter] at h1
  obtain ⟨h2, hc45⟩ := h1
  rw [List.mem_map] at h2
  obtain ⟨d, hd, hdc⟩ := h2
  refine ⟨⟨d, hd, hdc.symm⟩, ?_, ?_⟩
  · simpa using hc45
  · simpa using hc32

/-- Key idempotence step: on a string whose only whitespace runes are plain
spaces, `normalize` output contains no whitespace, no hyphen and no
lowercase ASCII letter, hence a second `normalize` is the identity. -/
theorem normalize_idem_of_space_only {s : GoStr}
    (h : ∀ c ∈ s, isGoSpace c = true → c = 32) :
    normalize (normalize s) = normalize s := by
  have hmem : ∀ c ∈ normalize s, isGoSpace c = false ∧ c ≠ 45 ∧ upperRune c = c := by
    intro c hc
    obtain ⟨⟨d, hd, hcd⟩, hc45, hc32⟩ := mem_normalize hc
    have hup : upperRune c = c := by rw [hcd]; exact upperRune_idem d
    refine ⟨?_, hc45, hup⟩
    by_contra hsp
    rw [Bool.not_eq_false] at hsp
    rw [hcd] at hsp
    obtain ⟨hds, hde⟩ := isGoSpace_upperRune d hsp
    have := h d (mem_of_mem_goTrimSpace hd) hds
    rw [hcd, hde, this] at hc32
    exact hc32 rfl
  conv_lhs => rw [normalize]
  rw [goTrimSpace_eq_self (fun c hc => (hmem c hc).1)]
  have hupper : goToUpper (normalize s) = normalize s := by
    unfold goToUpper
    have : ∀ c ∈ normalize s, upperRune c = c := fun c hc => (hmem c hc).2.2
    calc (normalize s).map upperRune = (normalize s).map id :=
          List.map_congr_left (fun c hc => this c hc)
      _ = normalize s := List.map_id _
  rw [hupper]
  have h45 : goRemoveAll 45 (normalize s) = normalize s := by
    unfold goRemoveAll
    rw [List.filter_eq_self]
    intro c hc
    simpa using (hmem c hc).2.1
  rw [h45]
  unfold goRemoveAll
  rw [List.filter_eq_self]
  intro c hc
  obtain ⟨_, hc32⟩ := (mem_normalize hc).2
  simpa using hc32

/-- C10.  CORRECTED.  The claim as frozen states that fuzzyMatch is
symmetric and that normalize is idempotent for every string.  Symmetry
holds unconditionally, but idempotence fails on strings containing
whitespace other than the space rune (TrimSpace trims every kind of
whitespace while only spaces and hyphens are removed, so a tab can become
leading after removal and is trimmed only by the second pass); see the
counterexample.  Amended statement: fuzzyMatch is symmetric, and normalize
is idempotent on every string whose whitespace runes are all plain
spaces. -/
theorem c10_fuzzy_symm_and_normalize_idem :
    (∀ a b : GoStr, fuzzyMatch a b = fuzzyMatch b a) ∧
      (∀ s : GoStr, (∀ c ∈ s, isGoSpace c = true → c = 32) →
        normalize (normalize s) = normalize s) := by
  constructor
  · intro a b
    unfold fuzzyMatch
    exact Bool.or_comm _ _
  · intro s h
    exact normalize_idem_of_space_only h

/-- C10 witness: the amended theorem applied to concrete inputs. -/
theorem c10_witness :
    fuzzyMatch (gs "C-172") (gs "172 N") = fuzzyMatch (gs "172 N") (gs "C-172") ∧
      normalize (normalize (gs " c-17 2 ")) = normalize (gs " c-17 2 ") :=
  ⟨c10_fuzzy_symm_and_normalize_idem.1 (gs "C-172") (gs "172 N"),
   c10_fuzzy_symm_and_normalize_idem.2 (gs " c-17 2 ") (by decide)⟩

/-- C10 counterexample: normalize is not idempotent on the source code as
written.  The input holds a hyphen, a tab and a letter: the first pass
leaves a leading tab (TrimSpace saw the hyphen first; ReplaceAll removes
only hyphens and spaces), the second pass trims it. -/
theorem c10_counterexample :
    ¬ (normalize (normalize (gs "-\ta")) = normalize (gs "-\ta")) := by
  decide

/-- The serial comparison as a proposition. -/
theorem serialMatchOf_eq_true_iff (e : ExtractedEntry) (x : ExpectedIdentity) :
    serialMatchOf e x = true ↔ normalize e.aircraftSerial = normalize x.serialNumber := by
  unfold serialMatchOf
  exact beq_iff_eq

/-- The make comparison as a proposition: empty on either side counts as a
match. -/
theorem makeMatchOf_eq_true_iff (e : ExtractedEntry) (x : ExpectedIdentity) :
    makeMatchOf e x = true ↔
      (e.aircraftMake = [] ∨ x.make = [] ∨ fuzzyMatch e.aircraftMake x.make = true) := by
  unfold makeMatchOf
  split
  · rename_i h
    constructor
    · intro hf
      exact Or.inr (Or.inr hf)
    · intro hor
      rcases hor with h1 | h1 | h1
      · exact absurd h1 h.1
      · exact absurd h1 h.2
      · exact h1
  · rename_i h
    constructor
    · intro _
      rcases not_and_or.mp h with h1 | h1
      · exact Or.inl (not_not.mp h1)
      · exact Or.inr (Or.inl (not_not.mp h1))
    · intro _
      rfl

/-- The model comparison as a proposition. -/
theorem modelMatchOf_eq_true_iff (e : ExtractedEntry) (x : ExpectedIdentity) :
    modelMatchOf e x = true ↔
      (e.aircraftModel = [] ∨ x.model = [] ∨ fuzzyMatch e.aircraftModel x.model = true) := by
  unfold modelMatchOf
  split
  · rename_i h
    constructor
    · intro hf
      exact Or.inr (Or.inr hf)
    · intro hor
      rcases hor with h1 | h1 | h1
      · exact absurd h1 h.1
      · exact absurd h1 h.2
      · exact h1
  · rename_i h
    constructor
    · intro _
      rcases not_and_or.mp h with h1 | h1
      · exact Or.inl (not_not.mp h1)
      · exact Or.inr (Or.inl (not_not.mp h1))
    · intro _
      rfl

/-- The flag condition of checkAircraftIdentity as a proposition. -/
theorem identityCond_iff (e : ExtractedEntry) (x : ExpectedIdentity) :
    (!serialMatchOf e x || (!makeMatchOf e x && !modelMatchOf e x)) = true ↔
      (¬ normalize e.aircraftSerial = normalize x.serialNumber ∨
        (¬ (e.aircraftMake = [] ∨ x.make = [] ∨ fuzzyMatch e.aircraftMake x.make = true) ∧
         ¬ (e.aircraftModel = [] ∨ x.model = [] ∨ fuzzyMatch e.aircraftModel x.model = true))) := by
  rw [Bool.or_eq_true, Bool.and_eq_true, Bool.not_eq_true', Bool.not_eq_true', Bool.not_eq_true']
  rw [Bool.eq_false_iff, Bool.eq_false_iff, Bool.eq_false_iff]
  rw [Ne, serialMatchOf_eq_true_iff, Ne, makeMatchOf_eq_true_iff, Ne, modelMatchOf_eq_true_iff]

/-- The mismatch note never collapses to the empty string. -/
theorem identityMismatchNote_ne_nil (e : ExtractedEntry) (x : ExpectedIdentity)
    (s m mo : Bool) : identityMismatchNote e x s m mo ≠ [] := by
  unfold identityMismatchNote
  intro h
  exact absurd (List.append_eq_nil.mp h).1 (by decide)

/-- C7.  CONFIRMED.  Identity reconciliation leaves the entry untouched
when either the authoritative or the extracted serial is empty; otherwise
it flags the entry (needs_review set, aircraft_identity_mismatch appended
to missing_data, a non-empty note appended to extraction_notes) exactly
when the normalized serials differ or neither make nor model fuzzy-match,
an empty side of the make or model comparison counting as a match. -/
theorem c7_checkAircraftIdentity (e : ExtractedEntry) (x : ExpectedIdentity) :
    (x.serialNumber = [] ∨ e.aircraftSerial = [] → checkAircraftIdentity e x = e) ∧
    (x.serialNumber ≠ [] → e.aircraftSerial ≠ [] →
      ((¬ normalize e.aircraftSerial = normalize x.serialNumber ∨
          (¬ (e.aircraftMake = [] ∨ x.make = [] ∨ fuzzyMatch e.aircraftMake x.make = true) ∧
           ¬ (e.aircraftModel = [] ∨ x.model = [] ∨ fuzzyMatch e.aircraftModel x.model = true)) →
        (checkAircraftIdentity e x).needsReview = true ∧
        (checkAircraftIdentity e x).missingData =
          e.missingData ++ [gs "aircraft_identity_mismatch"] ∧
        ∃ note : GoStr, note ≠ [] ∧
          (checkAircraftIdentity e x).extractionNotes = e.extractionNotes ++ note) ∧
       (¬ (¬ normalize e.aircraftSerial = normalize x.serialNumber ∨
          (¬ (e.aircraftMake = [] ∨ x.make = [] ∨ fuzzyMatch e.aircraftMake x.make = true) ∧
           ¬ (e.aircraftModel = [] ∨ x.model = [] ∨ fuzzyMatch e.aircraftModel x.model = true))) →
        checkAircraftIdentity e x = e))) := by
  constructor
  · intro h
    unfold checkAircraftIdentity
    rcases h with h | h
    · rw [if_pos h]
    · by_cases hx : x.serialNumber = []
      · rw [if_pos hx]
      · rw [if_neg hx, if_pos h]
  · intro h1 h2
    constructor
    · intro hc
      unfold checkAircraftIdentity
      rw [if_neg h1, if_neg h2, if_pos ((identityCond_iff e x).mpr hc)]
      exact ⟨rfl, rfl,
        identityMismatchNote e x (serialMatchOf e x) (makeMatchOf e x) (modelMatchOf e x),
        identityMismatchNote_ne_nil e x _ _ _, rfl⟩
    · intro hc
      unfold checkAircraftIdentity
      rw [if_neg h1, if_neg h2, if_neg (fun hb => hc ((identityCond_iff e x).mp hb))]

/-- C7 witness: a concrete serial mismatch (authoritative 12345 versus
extracted 99999) is flagged. -/
theorem c7_witness :
    (let e := { sampleEntry with aircraftSerial := gs "99999" }
     let x : ExpectedIdentity :=
       { registration := gs "N123AB", serialNumber := gs "12345",
         make := gs "Cessna", model := [] }
     (checkAircraftIdentity e x).needsReview = true ∧
       (checkAircraftIdentity e x).missingData =
         e.missingData ++ [gs "aircraft_identity_mismatch"] ∧
       ∃ note : GoStr, note ≠ [] ∧
         (checkAircraftIdentity e x).extractionNotes = e.extractionNotes ++ note) :=
  ((c7_checkAircraftIdentity _ _).2 (by decide) (by decide)).1 (by decide)

/-- Unfolding of the entry-type whitelist into a disjunction. -/
theorem validEntryTypes_eq_true_iff (s : GoStr) :
    validEntryTypes s = true ↔
      s = gs "maintenance" ∨ s = gs "inspection" ∨ s = gs "ad_compliance" ∨ s = gs "other" := by
  simp only [validEntryTypes, Bool.or_eq_true, beq_iff_eq]
  tauto

/-- The default step does not touch the date field. -/
theorem entryTypeDefault_date (e : ExtractedEntry) :
    (entryTypeDefault e).date = e.date := by
  unfold entryTypeDefault
  split <;> rfl

/-- The legacy step does not touch the date field. -/
theorem entryTypeLegacy_date (e : ExtractedEntry) :
    (entryTypeLegacy e).date = e.date := by
  unfold entryTypeLegacy
  split
  · rfl
  · split <;> rfl

/-- normalizeEntryType does not touch the date field. -/
theorem normalizeEntryType_date (e : ExtractedEntry) :
    (normalizeEntryType e).date = e.date := by
  unfold normalizeEntryType
  split
  · simp only []
    rw [entryTypeLegacy_date, entryTypeDefault_date]
  · rw [entryTypeLegacy_date, entryTypeDefault_date]

/-- The legacy map returns none away from the five alias keys. -/
theorem legacyInspectionMap_eq_none {s : GoStr}
    (h1 : s ≠ gs "annual") (h2 : s ≠ gs "100hr") (h3 : s ≠ gs "progressive")
    (h4 : s ≠ gs "altimeter_check") (h5 : s ≠ gs "transponder_check") :
    legacyInspectionMap s = none := by
  unfold legacyInspectionMap
  rw [if_neg h1, if_neg h2, if_neg h3, if_neg h4, if_neg h5]

/-- C8.  CONFIRMED.  After normalizeEntryType the entry type is always one
of maintenance, inspection, ad_compliance, other; an empty type becomes
maintenance; each legacy alias becomes inspection with the mapped
inspection type; a bare inspection gains inspection type other; and any
other unrecognized entry type becomes other. -/
theorem c8_normalizeEntryType (e : ExtractedEntry) :
    ((normalizeEntryType e).entryType ∈
        [gs "maintenance", gs "inspection", gs "ad_compliance", gs "other"]) ∧
    (e.entryType = [] → normalizeEntryType e = { e with entryType := gs "maintenance" }) ∧
    (e.entryType = gs "annual" →
      normalizeEntryType e = { e with entryType := gs "inspection", inspectionType := gs "annual" }) ∧
    (e.entryType = gs "100hr" →
      normalizeEntryType e = { e with entryType := gs "inspection", inspectionType := gs "100hr" }) ∧
    (e.entryType = gs "progressive" →
      normalizeEntryType e =
        { e with entryType := gs "inspection", inspectionType := gs "progressive" }) ∧
    (e.entryType = gs "altimeter_check" →
      normalizeEntryType e =
        { e with entryType := gs "inspection", inspectionType := gs "altimeter_static" }) ∧
    (e.entryType = gs "transponder_check" →
      normalizeEntryType e =
        { e with entryType := gs "inspection", inspectionType := gs "transponder" }) ∧
    (e.entryType = gs "inspection" → e.inspectionType = [] →
      normalizeEntryType e = { e with inspectionType := gs "other" }) ∧
    (e.entryType ∉
        [([] : GoStr), gs "annual", gs "100hr", gs "progressive", gs "altimeter_check",
         gs "transponder_check", gs "maintenance", gs "inspection", gs "ad_compliance",
         gs "other"] →
      normalizeEntryType e = { e with entryType := gs "other" }) := by
  refine ⟨?_, ?_, ?_, ?_, ?_, ?_, ?_, ?_, ?_⟩
  · unfold normalizeEntryType
    split
    · simp only []
      decide
    · rename_i h
      have hv : validEntryTypes (entryTypeLegacy (entryTypeDefault e)).entryType = true := by
        revert h
        cases validEntryTypes (entryTypeLegacy (entryTypeDefault e)).entryType <;> simp
      rcases (validEntryTypes_eq_true_iff _).mp hv with h1 | h1 | h1 | h1 <;> rw [h1] <;> decide
  · intro h
    have hd : entryTypeDefault e = { e with entryType := gs "maintenance" } := by
      unfold entryTypeDefault
      rw [if_pos h]
    have hl : entryTypeLegacy { e with entryType := gs "maintenance" } =
        { e with entryType := gs "maintenance" } := by
      unfold entryTypeLegacy
      simp only []
      rw [show legacyInspectionMap (gs "maintenance") = none from by decide]
      rw [if_neg (by intro hc; exact absurd hc.1 (by decide))]
    unfold normalizeEntryType
    rw [hd, hl]
    simp only []
    rw [show validEntryTypes (gs "maintenance") = true from by decide]
    rfl
  · intro h
    have hd : entryTypeDefault e = e := by
      unfold entryTypeDefault
      rw [h]
      rw [if_neg (by decide)]
    have hl : entryTypeLegacy e =
        { e with entryType := gs "inspection", inspectionType := gs "annual" } := by
      unfold entryTypeLegacy
      rw [h]
      rw [show legacyInspectionMap (gs "annual") = some (gs "annual") from by decide]
    unfold normalizeEntryType
    rw [hd, hl]
    simp only []
    rw [show validEntryTypes (gs "inspection") = true from by decide]
    rfl
  · intro h
    have hd : entryTypeDefault e = e := by
      unfold entryTypeDefault
      rw [h]
      rw [if_neg (by decide)]
    have hl : entryTypeLegacy e =
        { e with entryType := gs "inspection", inspectionType := gs "100hr" } := by
      unfold entryTypeLegacy
      rw [h]
      rw [show legacyInspectionMap (gs "100hr") = some (gs "100hr") from by decide]
    unfold normalizeEntryType
    rw [hd, hl]
    simp only []
    rw [show validEntryTypes (gs "inspection") = true from by decide]
    rfl
  · intro h
    have hd : entryTypeDefault e = e := by
      unfold entryTypeDefault
      rw [h]
      rw [if_neg (by decide)]
    have hl : entryTypeLegacy e =
        { e with entryType := gs "inspection", inspectionType := gs "progressive" } := by
      unfold entryTypeLegacy
      rw [h]
      rw [show legacyInspectionMap (gs "progressive") = some (gs "progressive") from by decide]
    unfold normalizeEntryType
    rw [hd, hl]
    simp only []
    rw [show validEntryTypes (gs "inspection") = true from by decide]
    rfl
  · intro h
    have hd : entryTypeDefault e = e := by
      unfold entryTypeDefault
      rw [h]
      rw [if_neg (by decide)]
    have hl : entryTypeLegacy e =
        { e with entryType := gs "inspection", inspectionType := gs "altimeter_static" } := by
      unfold entryTypeLegacy
      rw [h]
      rw [show legacyInspectionMap (gs "altimeter_check") = some (gs "altimeter_static") from
        by decide]
    unfold normalizeEntryType
    rw [hd, hl]
    simp only []
    rw [show validEntryTypes (gs "inspection") = true from by decide]
    rfl
  · intro h
    have hd : entryTypeDefault e = e := by
      unfold entryTypeDefault
      rw [h]
      rw [if_neg (by decide)]
    have hl : entryTypeLegacy e =
        { e with entryType := gs "inspection", inspectionType := gs "transponder" } := by
      unfold entryTypeLegacy
      rw [h]
      rw [show legacyInspectionMap (gs "transponder_check") = some (gs "transponder") from
        by decide]
    unfold normalizeEntryType
    rw [hd, hl]
    simp only []
    rw [show validEntryTypes (gs "inspection") = true from by decide]
    rfl
  · intro h h2
    have hd : entryTypeDefault e = e := by
      unfold entryTypeDefault
      rw [h]
      rw [if_neg (by decide)]
    have hl : entryTypeLegacy e = { e with inspectionType := gs "other" } := by
      unfold entryTypeLegacy
      rw [h]
      rw [show legacyInspectionMap (gs "inspection") = none from by decide]
      rw [if_pos ⟨rfl, h2⟩]
    unfold normalizeEntryType
    rw [hd, hl]
    simp only []
    rw [h]
    rw [show validEntryTypes (gs "inspection") = true from by decide]
    rfl
  · intro h
    simp only [List.mem_cons, List.mem_singleton, not_or] at h
    obtain ⟨hn, ha1, ha2, ha3, ha4, ha5, hv1, hv2, hv3, hv4, -⟩ := h
    have hd : entryTypeDefault e = e := by
      unfold entryTypeDefault
      rw [if_neg hn]
    have hl : entryTypeLegacy e = e := by
      unfold entryTypeLegacy
      rw [legacyInspectionMap_eq_none ha1 ha2 ha3 ha4 ha5]
      rw [if_neg (fun hc => hv2 hc.1)]
    have hv : validEntryTypes e.entryType = false := by
      rw [Bool.eq_false_iff]
      intro hvt
      rcases (validEntryTypes_eq_true_iff _).mp hvt with h1 | h1 | h1 | h1
      · exact hv1 h1
      · exact hv2 h1
      · exact hv3 h1
      · exact hv4 h1
    unfold normalizeEntryType
    rw [hd, hl, hv]
    rfl

/-- C8 witness: the altimeter_check alias from a concrete entry. -/
theorem c8_witness :
    normalizeEntryType { sampleEntry with entryType := gs "altimeter_check" } =
      { sampleEntry with entryType := gs "inspection", inspectionType := gs "altimeter_static" } :=
  ((((((c8_normalizeEntryType
    { sampleEntry with entryType := gs "altimeter_check" }).2).2).2).2).2).1 (by decide)

/-- C9.  CONFIRMED.  An entry whose date is the empty string produces no
maintenance_entries row, no child rows and no embedding row, and saveEntry
reports success. -/
theorem c9_saveEntry_empty_date (a p : GoStr) (e : ExtractedEntry) (h : e.date = []) :
    saveEntry a p e =
      { entryRow := none, partsRows := [], adRows := [], inspRows := [],
        embRows := [], ok := true } := by
  unfold saveEntry
  rw [if_pos (by rw [normalizeEntryType_date, h])]

/-- C9 witness: a concrete dateless entry is dropped with success. -/
theorem c9_witness :
    saveEntry (gs "ac-1") (gs "page-1") { sampleEntry with date := [] } =
      { entryRow := none, partsRows := [], adRows := [], inspRows := [],
        embRows := [], ok := true } :=
  c9_saveEntry_empty_date (gs "ac-1") (gs "page-1") _ (by decide)

/-- C2 counterexample: a request mixing a PDF with an unknown-extension
file (.txt) is accepted with HTTP 200 and a batch row, because the
classification loop silently drops files that are neither PDFs nor
images; the claim requires a 400 with no batch for every request that
contains such a file. -/
theorem c2_counterexample :
    (let req : UploadRequest :=
       { tailNumber := gs "N123AB", logType := gs "airframe",
         files := [{ filename := gs "log.pdf" }, { filename := gs "notes.txt" }] }
     (∃ f ∈ req.files,
        pdfExtension (fileExt f) = false ∧ imageExtension (fileExt f) = false) ∧
       (handleUpload (gs "batch-1") req).status = 200 ∧
       (handleUpload (gs "batch-1") req).batch.isSome = true) := by
  refine ⟨⟨{ filename := gs "notes.txt" }, by decide, by decide⟩, by decide, by decide⟩

/-- C2.  CORRECTED.  Intake returns ErrInvalidInput (HTTP 400) with no
batch and no page rows whenever NO file of the request carries a
recognized extension; a file with an unknown extension that appears
alongside recognized files is silently dropped instead of rejected (see
the counterexample). -/
theorem c2_handleUpload_all_unknown (batchID : GoStr) (req : UploadRequest)
    (h : ∀ f ∈ req.files,
      pdfExtension (fileExt f) = false ∧ imageExtension (fileExt f) = false) :
    (handleUpload batchID req).status = 400 ∧
      (handleUpload batchID req).batch = none ∧
      (handleUpload batchID req).pages = [] := by
  have hpdf : req.files.filter (fun f => pdfExtension (fileExt f)) = [] := by
    rw [List.filter_eq_nil_iff]
    intro f hf
    rw [(h f hf).1]
    exact Bool.false_ne_true
  have himg : req.files.filter
      (fun f => !pdfExtension (fileExt f) && imageExtension (fileExt f)) = [] := by
    rw [List.filter_eq_nil_iff]
    intro f hf
    rw [(h f hf).1, (h f hf).2]
    decide
  simp only [handleUpload]
  rw [hpdf, himg]
  split
  · decide
  split
  · decide
  split
  · decide
  rw [if_neg (by decide : ¬ (([] : List UploadFile).length > 0 ∧
      ([] : List UploadFile).length > 0))]
  rw [if_pos (by decide : (([] : List UploadFile).length = 0 ∧
      ([] : List UploadFile).length = 0))]
  exact ⟨rfl, rfl, rfl⟩

/-- C2 witness: a single-file request with extension .txt is rejected with
400 and writes nothing. -/
theorem c2_witness :
    (handleUpload (gs "batch-1")
        { tailNumber := gs "N123AB", logType := gs "airframe",
          files := [{ filename := gs "scan.txt" }] }).status = 400 ∧
      (handleUpload (gs "batch-1")
        { tailNumber := gs "N123AB", logType := gs "airframe",
          files := [{ filename := gs "scan.txt" }] }).batch = none ∧
      (handleUpload (gs "batch-1")
        { tailNumber := gs "N123AB", logType := gs "airframe",
          files := [{ filename := gs "scan.txt" }] }).pages = [] :=
  c2_handleUpload_all_unknown (gs "batch-1") _ (by decide)

/-- The completion rollup never writes processing (or pending). -/
theorem checkBatchCompletion_ne_processing (pages : List PageStatus) (b : BatchStatus)
    (h : checkBatchCompletion pages = some b) : b ≠ BatchStatus.processing := by
  simp only [checkBatchCompletion] at h
  split at h
  · have hb := Option.some.inj h
    split at hb
    · rw [← hb]
      decide
    · split at hb
      · rw [← hb]
        decide
      · rw [← hb]
        decide
  · exact absurd h (by simp)

/-- C4.  CONFIRMED.  The rollup writes a status exactly when the batch has
pages and every page is done or failed; the status written is completed
when no page failed, failed when no page succeeded, completed_with_errors
otherwise; in every other case the batch row is untouched. -/
theorem c4_checkBatchCompletion (pages : List PageStatus) :
    (let total := pages.length
     let done := (pages.filter fun s =>
       decide (s = PageStatus.completed ∨ s = PageStatus.skipped)).length
     let failedN := (pages.filter fun s => decide (s = PageStatus.failed)).length
     (0 < total ∧ done + failedN = total →
        checkBatchCompletion pages =
          some (if failedN = 0 then BatchStatus.completed
                else if done = 0 then BatchStatus.failed
                else BatchStatus.completedWithErrors)) ∧
     (¬ (0 < total ∧ done + failedN = total) → checkBatchCompletion pages = none)) := by
  have hdone : pages.countP (fun s => s == PageStatus.completed || s == PageStatus.skipped) =
      (pages.filter fun s => decide (s = PageStatus.completed ∨ s = PageStatus.skipped)).length := by
    rw [← List.countP_eq_length_filter]
    exact List.countP_congr (fun s _ => by cases s <;> rfl)
  have hfail : pages.countP (fun s => s == PageStatus.failed) =
      (pages.filter fun s => decide (s = PageStatus.failed)).length := by
    rw [← List.countP_eq_length_filter]
    exact List.countP_congr (fun s _ => by cases s <;> rfl)
  constructor
  · intro hcond
    unfold checkBatchCompletion
    rw [hdone, hfail]
    rw [if_pos hcond]
  · intro hcond
    unfold checkBatchCompletion
    rw [hdone, hfail]
    rw [if_neg hcond]

/-- C4 witness: one completed and one failed page roll up to
completed_with_errors, and a batch with a still-pending page is left
unchanged. -/
theorem c4_witness :
    checkBatchCompletion [PageStatus.completed, PageStatus.failed] =
        some BatchStatus.completedWithErrors ∧
      checkBatchCompletion [PageStatus.completed, PageStatus.pending] = none :=
  ⟨(c4_checkBatchCompletion [PageStatus.completed, PageStatus.failed]).1 (by decide),
   (c4_checkBatchCompletion [PageStatus.completed, PageStatus.pending]).2 (by decide)⟩

/-- C3 counterexample: a completed single-page PDF batch is reachable
(upload event, then the page completes and rolls up to completed), and a
second uploads/ object-create event for the same batch (a re-PUT with the
still-valid presigned URL, or a duplicate S3 event delivery) drives the
batch back to processing, because the Split PDF path updates the status
unconditionally. -/
theorem c3_counterexample :
    (applySteps initialPDFBatch
        [PipeStep.pdfUpload true true true 1, PipeStep.analyzePage 1 true]).batch.isTerminal
        = true ∧
      (applyStep
          (applySteps initialPDFBatch
            [PipeStep.pdfUpload true true true 1, PipeStep.analyzePage 1 true])
          (PipeStep.pdfUpload true true true 1)).batch = BatchStatus.processing := by
  decide

/-- C3.  CORRECTED.  Once a batch is terminal, the Split page-arrival path
and the Analyze worker (including its completion rollup) never set the
status back to processing: the page-arrival update is guarded by
processing_status = pending and the rollup writes only terminal statuses.
The Split PDF/single-image path is exempt: it sets processing
unconditionally on any uploads/ object event (see the counterexample). -/
theorem c3_terminal_not_reprocessing (s : BatchState) (step : PipeStep)
    (hterm : s.batch.isTerminal = true)
    (hstep : step.isUploadEvent = false) :
    (applyStep s step).batch ≠ BatchStatus.processing := by
  have hbatch : s.batch ≠ BatchStatus.processing ∧ s.batch ≠ BatchStatus.pending := by
    cases hb : s.batch <;> rw [hb] at hterm <;> first | exact ⟨by decide, by decide⟩ | exact absurd hterm (by decide)
  cases step with
  | pdfUpload a b c n => simp [PipeStep.isUploadEvent] at hstep
  | pageArrival n =>
      simp only [applyStep]
      cases hl : lookupPage s.pages n with
      | none => exact hbatch.1
      | some st =>
          simp only []
          rw [if_neg hbatch.2]
          exact hbatch.1
  | analyzePage n ok =>
      simp only [applyStep]
      cases hl : lookupPage s.pages n with
      | none => exact hbatch.1
      | some st =>
          simp only []
          cases ok with
          | false =>
              rw [if_neg (by decide)]
              exact hbatch.1
          | true =>
              rw [if_pos rfl]
              simp only []
              cases hc : checkBatchCompletion
                  ((setPage s.pages n PageStatus.completed).map (fun p => p.2)) with
              | none => simpa [Option.getD] using hbatch.1
              | some b =>
                  simpa [Option.getD] using checkBatchCompletion_ne_processing _ b hc

/-- C3 witness: the amended theorem at a concrete terminal state and a
page-arrival event. -/
theorem c3_witness :
    (applyStep { batch := BatchStatus.completed, pages := [(1, PageStatus.completed)] }
        (PipeStep.pageArrival 1)).batch ≠ BatchStatus.processing :=
  c3_terminal_not_reprocessing _ _ (by decide) (by decide)

/-- A region chain may lower its lower bound. -/
theorem regChain_weaken {height lb lb' : Nat} {rs : List (Nat × Nat)}
    (h : RegChain height lb rs) (hle : lb' ≤ lb) : RegChain height lb' rs := by
  cases h with
  | nil => exact RegChain.nil lb'
  | cons lb a b rest h1 h2 h3 h4 =>
      exact RegChain.cons lb' a b rest (le_trans hle h1) h2 h3 h4

/-- Every member of a region chain is a non-empty in-bounds span starting
at or after the lower bound. -/
theorem regChain_mem {height lb : Nat} {rs : List (Nat × Nat)}
    (h : RegChain height lb rs) {r : Nat × Nat} (hr : r ∈ rs) :
    lb ≤ r.1 ∧ r.1 < r.2 ∧ r.2 ≤ height := by
  induction h with
  | nil => simp at hr
  | cons lb a b rest h1 h2 h3 _ ih =>
      rcases List.mem_cons.mp hr with hr1 | hr2
      · subst hr1
        exact ⟨h1, h2, h3⟩
      · have hm := ih hr2
        exact ⟨le_trans h1 (le_trans (le_of_lt h2) hm.1), hm.2.1, hm.2.2⟩

/-- The projection profile has one entry per row. -/
theorem projectionProfile_length (img : GoImage) (t : Nat) :
    (projectionProfile img t).length = img.height := by
  simp [projectionProfile]

/-- The noise floor step preserves the profile length. -/
theorem subtractNoiseFloor_length (w : Nat) (p : List Nat) :
    (subtractNoiseFloor w p).length = p.length := by
  simp [subtractNoiseFloor]

/-- Smoothing preserves the profile length. -/
theorem smoothProfile_length (p : List Nat) (r : Nat) :
    (smoothProfile p r).length = p.length := by
  simp only [smoothProfile]
  split
  · rfl
  · simp

/-- The row scan produces a well-formed region chain within the total
height, with runs starting at or after the current row (or the open run
start). -/
theorem scanRegionsAux_chain (thr : Nat) (l : List Nat) : ∀ (H y : Nat) (st : Option Nat),
    y + l.length = H →
    (∀ s, st = some s → s < y) →
    RegChain H (match st with | some s => s | none => y) (scanRegionsAux thr l y st) := by
  induction l with
  | nil =>
      intro H y st hH hst
      cases st with
      | none => exact RegChain.nil _
      | some s =>
          simp only [scanRegionsAux]
          exact RegChain.cons s s y [] (le_refl s) (hst s rfl) (by omega) (RegChain.nil y)
  | cons v rest ih =>
      intro H y st hH hst
      have hH2 : (y + 1) + rest.length = H := by
        simp only [List.length_cons] at hH
        omega
      cases st with
      | none =>
          simp only [scanRegionsAux]
          split
          · exact ih H (y + 1) (some y) hH2 (by intro s hs; injection hs with hs; omega)
          · exact regChain_weaken (ih H (y + 1) none hH2 (by intro s hs; simp at hs))
              (Nat.le_succ y)
      | some s =>
          simp only [scanRegionsAux]
          split
          · exact ih H (y + 1) (some s)  hH2
              (by intro s2 hs; injection hs with hs; have := hst s rfl; omega)
          · exact RegChain.cons s s y _ (le_refl s) (hst s rfl) (by omega)
              (regChain_weaken (ih H (y + 1) none hH2 (by intro s2 hs; simp at hs))
                (Nat.le_succ y))

/-- The gap-merge loop preserves well-formedness. -/
theorem mergeRegionsAux_chain (g : Int) : ∀ (rest : List (Nat × Nat)) (a b lb H : Nat),
    RegChain H lb ((a, b) :: rest) →
    RegChain H lb (mergeRegionsAux g (a, b) rest) := by
  intro rest
  induction rest with
  | nil =>
      intro a b lb H h
      simpa [mergeRegionsAux] using h
  | cons r rest2 ih =>
      intro a b lb H h
      obtain ⟨c, d⟩ := r
      cases h with
      | cons _ _ _ _ h1 h2 h3 h4 =>
          cases h4 with
          | cons _ _ _ _ g1 g2 g3 g4 =>
              simp only [mergeRegionsAux]
              split
              · exact ih a d lb H
                  (RegChain.cons lb a d rest2 h1
                    (lt_trans (lt_of_lt_of_le h2 g1) g2) g3 g4)
              · exact RegChain.cons lb a b _ h1 h2 h3
                  (ih c d b H (RegChain.cons b c d rest2 g1 g2 g3 g4))

/-- mergeRegions preserves well-formedness. -/
theorem mergeRegions_chain {g : Int} {rs : List (Nat × Nat)} {lb H : Nat}
    (h : RegChain H lb rs) : RegChain H lb (mergeRegions rs g) := by
  cases rs with
  | nil => exact h
  | cons r rest =>
      obtain ⟨a, b⟩ := r
      exact mergeRegionsAux_chain g rest a b lb H h

/-- The small-region search returns an index below the count of regions
scanned. -/
theorem findSmallAux_lt (m : Int) : ∀ (l : List (Nat × Nat)) (k : Nat)
    (acc : Option (Nat × Int)),
    (∀ j hh, acc = some (j, hh) → j < k) →
    ∀ j hh, findSmallAux m l k acc = some (j, hh) → j < k + l.length := by
  intro l
  induction l with
  | nil =>
      intro k acc hacc j hh hres
      simp only [findSmallAux] at hres
      have := hacc j hh hres
      omega
  | cons r rest ih =>
      intro k acc hacc j hh hres
      cases acc with
      | none =>
          simp only [findSmallAux, List.length_cons] at hres ⊢
          by_cases hc : ((r.2 : Int) - (r.1 : Int)) < m
          · rw [if_pos hc] at hres
            have := ih (k + 1) (some (k, (r.2 : Int) - (r.1 : Int)))
              (by intro j2 h2 he; injection he with he; injection he with he1 he2; omega)
              j hh hres
            omega
          · rw [if_neg hc] at hres
            have := ih (k + 1) none (by intro j2 h2 he; simp at he) j hh hres
            omega
      | some p =>
          obtain ⟨j0, h0⟩ := p
          simp only [findSmallAux, List.length_cons] at hres ⊢
          by_cases hc : ((r.2 : Int) - (r.1 : Int)) < m ∧ ((r.2 : Int) - (r.1 : Int)) < h0
          · rw [if_pos hc] at hres
            have := ih (k + 1) (some (k, (r.2 : Int) - (r.1 : Int)))
              (by intro j2 h2 he; injection he with he; injection he with he1 he2; omega)
              j hh hres
            omega
          · rw [if_neg hc] at hres
            have := ih (k + 1) (some (j0, h0))
              (by intro j2 h2 he; injection he with he; injection he with he1 he2
                  have := hacc j0 h0 rfl; omega)
              j hh hres
            omega

/-- The chosen small region lies inside the list. -/
theorem findSmallIdx_lt {rs : List (Nat × Nat)} {m : Int} {i : Nat}
    (h : findSmallIdx rs m = some i) : i < rs.length := by
  unfold findSmallIdx at h
  cases hres : findSmallAux m rs 0 none with
  | none => rw [hres] at h; simp at h
  | some p =>
      obtain ⟨j, hh⟩ := p
      rw [hres] at h
      simp at h
      subst h
      have := findSmallAux_lt m rs 0 none (by intro j2 h2 he; simp at he) j hh hres
      omega

/-- The merge target is adjacent to the small region and both lie inside
the list. -/
theorem mergeTarget_adj {rs : List (Nat × Nat)} {i : Nat} (h2 : 2 ≤ rs.length)
    (hi : i < rs.length) :
    min i (mergeTarget rs i) + 1 = max i (mergeTarget rs i) ∧
      max i (mergeTarget rs i) < rs.length := by
  unfold mergeTarget
  split
  · rename_i h0
    subst h0
    exact ⟨by omega, by omega⟩
  · rename_i h0
    split
    · rename_i hlt
      split
      · exact ⟨by omega, by omega⟩
      · exact ⟨by omega, by omega⟩
    · exact ⟨by omega, by omega⟩

/-- Merging two adjacent regions of a chain into their union preserves the
chain. -/
theorem regChain_splice {H : Nat} (k : Nat) : ∀ (rs : List (Nat × Nat)) (lb : Nat),
    RegChain H lb rs → k + 1 < rs.length →
    RegChain H lb
      (rs.take k ++ ((rs.getD k (0, 0)).1, (rs.getD (k + 1) (0, 0)).2) :: rs.drop (k + 2)) := by
  induction k with
  | zero =>
      intro rs lb h hlen
      cases rs with
      | nil => simp at hlen
      | cons r1 rs2 =>
          cases rs2 with
          | nil => simp at hlen
          | cons r2 rest =>
              obtain ⟨a, b⟩ := r1
              obtain ⟨c, d⟩ := r2
              cases h with
              | cons _ _ _ _ h1 h2 h3 h4 =>
                  cases h4 with
                  | cons _ _ _ _ g1 g2 g3 g4 =>
                      simp only [List.take_zero, List.getD_cons_zero, List.getD_cons_succ,
                        List.drop_succ_cons, List.drop_zero, List.nil_append]
                      exact RegChain.cons lb a d rest h1
                        (lt_trans (lt_of_lt_of_le h2 g1) g2) g3 g4
  | succ k ih =>
      intro rs lb h hlen
      cases rs with
      | nil => simp at hlen
      | cons r1 rest =>
          obtain ⟨a, b⟩ := r1
          cases h with
          | cons _ _ _ _ h1 h2 h3 h4 =>
              simp only [List.take_succ_cons, List.getD_cons_succ, List.drop_succ_cons,
                List.cons_append]
              refine RegChain.cons lb a b _ h1 h2 h3 (ih rest b h4 ?_)
              simp only [List.length_cons] at hlen
              omega

/-- The absorption loop preserves well-formedness. -/
theorem absorbGo_chain (m : Int) : ∀ (fuel : Nat) (rs : List (Nat × Nat)) (lb H : Nat),
    RegChain H lb rs → RegChain H lb (absorbGo m fuel rs) := by
  intro fuel
  induction fuel with
  | zero =>
      intro rs lb H h
      simpa [absorbGo] using h
  | succ fuel ih =>
      intro rs lb H h
      simp only [absorbGo]
      cases hfind : findSmallIdx rs m with
      | none => exact h
      | some i =>
          simp only []
          split
          · exact h
          · rename_i hlen
            have hi := findSmallIdx_lt hfind
            have hadj := mergeTarget_adj (by omega) hi
            apply ih
            rw [show max i (mergeTarget rs i) = min i (mergeTarget rs i) + 1 from hadj.1.symm]
            exact regChain_splice (min i (mergeTarget rs i)) rs lb h (by omega)

/-- absorbSmallRegions preserves well-formedness. -/
theorem absorbSmallRegions_chain {m : Int} {rs : List (Nat × Nat)} {lb H : Nat}
    (h : RegChain H lb rs) : RegChain H lb (absorbSmallRegions rs m) :=
  absorbGo_chain m rs.length rs lb H h

/-- The surviving regions of a page form a well-formed chain within the
image height. -/
theorem survivingRegions_chain (img : GoImage) (opts : SlicerOptions) :
    RegChain img.height 0 (survivingRegions img opts) := by
  unfold survivingRegions findRegions
  apply absorbSmallRegions_chain
  apply mergeRegions_chain
  have hlen : (pageSmoothed img opts).length = img.height := by
    unfold pageSmoothed
    rw [smoothProfile_length, subtractNoiseFloor_length, projectionProfile_length]
  exact scanRegionsAux_chain _ (pageSmoothed img opts) img.height 0 none
    (by omega) (by intro s hs; simp at hs)

/-- Every slice of the crop loop arises from a region by padding and
clamping. -/
theorem cropSlicesAux_mem {pad ms h : Nat} : ∀ (rs : List (Nat × Nat)) (idx : Nat)
    (s : GoSlice), s ∈ cropSlicesAux pad ms h rs idx →
    ∃ r ∈ rs, s.y0 = r.1 - pad ∧ s.y1 = min (r.2 + pad) h := by
  intro rs
  induction rs with
  | nil =>
      intro idx s hs
      simp [cropSlicesAux] at hs
  | cons r rest ih =>
      intro idx s hs
      simp only [cropSlicesAux] at hs
      split at hs
      · obtain ⟨r2, hr2, he⟩ := ih idx s hs
        exact ⟨r2, List.mem_cons_of_mem r hr2, he⟩
      · rcases List.mem_cons.mp hs with hs1 | hs2
        · subst hs1
          exact ⟨r, List.mem_cons_self r rest, rfl, rfl⟩
        · obtain ⟨r2, hr2, he⟩ := ih (idx + 1) s hs2
          exact ⟨r2, List.mem_cons_of_mem r hr2, he⟩

/-- The crop loop assigns dense ascending indices from its start value. -/
theorem cropSlicesAux_indices {pad ms h : Nat} : ∀ (rs : List (Nat × Nat)) (idx : Nat),
    (cropSlicesAux pad ms h rs idx).map (fun s => s.index) =
      List.range' idx (cropSlicesAux pad ms h rs idx).length := by
  intro rs
  induction rs with
  | nil =>
      intro idx
      simp [cropSlicesAux]
  | cons r rest ih =>
      intro idx
      simp only [cropSlicesAux]
      split
      · exact ih idx
      · simp only [List.map_cons, List.length_cons, List.range'_succ]
        rw [ih (idx + 1)]

/-- The crop loop of a well-formed chain is ordered top to bottom in both
crop coordinates. -/
theorem cropSlicesAux_pairwise {pad ms h : Nat} : ∀ (rs : List (Nat × Nat)) (lb H idx : Nat),
    RegChain H lb rs →
    (cropSlicesAux pad ms h rs idx).Pairwise fun a b => a.y0 ≤ b.y0 ∧ a.y1 ≤ b.y1 := by
  intro rs
  induction rs with
  | nil =>
      intro lb H idx _
      simp [cropSlicesAux]
  | cons r rest ih =>
      intro lb H idx hch
      obtain ⟨a, b⟩ := r
      cases hch with
      | cons _ _ _ _ h1 h2 h3 h4 =>
          simp only [cropSlicesAux]
          split
          · exact ih b H idx h4
          · refine List.Pairwise.cons ?_ (ih b H (idx + 1) h4)
            intro s2 hs2
            obtain ⟨r2, hr2, hy0, hy1⟩ := cropSlicesAux_mem rest (idx + 1) s2 hs2
            have hm := regChain_mem h4 hr2
            constructor
            · simp only []
              rw [hy0]
              exact Nat.sub_le_sub_right (le_trans (le_of_lt h2) hm.1) pad
            · simp only []
              rw [hy1]
              exact min_le_min
                (Nat.add_le_add_right (le_of_lt (lt_of_le_of_lt hm.1 hm.2.1)) pad)
                (le_refl h)

/-- C5.  CONFIRMED.  For every decoded image the slicer returns at least
one slice, and whenever fewer than two regions survive segmentation, or
every surviving region is discarded by the minimum-slice-height check, the
result is exactly one slice spanning the whole image, as a success. -/
theorem c5_sliceImage_total (img : GoImage) (opts : SlicerOptions) :
    1 ≤ (sliceImage img opts).length ∧
    ((survivingRegions img opts).length < 2 →
      sliceImage img opts = [{ index := 0, y0 := 0, y1 := img.height }]) ∧
    (keptSlices img opts = [] →
      sliceImage img opts = [{ index := 0, y0 := 0, y1 := img.height }]) := by
  refine ⟨?_, ?_, ?_⟩
  · unfold sliceImage
    split
    · simp
    · split
      · simp
      · rename_i hne
        exact List.length_pos.mpr hne
  · intro h
    unfold sliceImage
    rw [if_pos h]
  · intro h
    unfold sliceImage
    by_cases hlt : (survivingRegions img opts).length < 2
    · rw [if_pos hlt]
    · rw [if_neg hlt, if_pos h]

/-- C5 witness: on a concrete all-white page no region survives and the
slicer returns the single full-page slice. -/
theorem c5_witness :
    (survivingRegions whiteImage DefaultOptions).length < 2 ∧
      keptSlices whiteImage DefaultOptions = [] ∧
      sliceImage whiteImage DefaultOptions = [{ index := 0, y0 := 0, y1 := 4 }] ∧
      1 ≤ (sliceImage whiteImage DefaultOptions).length :=
  ⟨by decide, by decide,
   (c5_sliceImage_total whiteImage DefaultOptions).2.1 (by decide),
   (c5_sliceImage_total whiteImage DefaultOptions).1⟩

/-- C6.  CONFIRMED.  On a decoded (hence non-empty) image every slice
satisfies 0 ≤ y0 < y1 ≤ height, the slice indices are exactly 0, 1, 2, …
in order, and the slices are arranged top to bottom in both crop
coordinates. -/
theorem c6_sliceImage_invariants (img : GoImage) (opts : SlicerOptions)
    (hh : 0 < img.height) :
    (∀ s ∈ sliceImage img opts, s.y0 < s.y1 ∧ s.y1 ≤ img.height) ∧
    (sliceImage img opts).map (fun s => s.index) =
      List.range (sliceImage img opts).length ∧
    (sliceImage img opts).Pairwise (fun a b => a.y0 ≤ b.y0 ∧ a.y1 ≤ b.y1) := by
  have hch : RegChain img.height 0 (survivingRegions img opts) :=
    survivingRegions_chain img opts
  unfold sliceImage
  split
  · refine ⟨?_, ?_, ?_⟩
    · intro s hs
      simp only [List.mem_singleton] at hs
      subst hs
      exact ⟨hh, le_refl _⟩
    · rfl
    · simp
  · split
    · refine ⟨?_, ?_, ?_⟩
      · intro s hs
        simp only [List.mem_singleton] at hs
        subst hs
        exact ⟨hh, le_refl _⟩
      · rfl
      · simp
    · refine ⟨?_, ?_, ?_⟩
      · intro s hs
        obtain ⟨r, hr, hy0, hy1⟩ := cropSlicesAux_mem _ _ s hs
        have hm := regChain_mem hch hr
        constructor
        · have hr2 : r.2 ≤ min (r.2 + (scaleToHeight opts img.height).padding) img.height :=
            le_min (Nat.le_add_right _ _) hm.2.2
          rw [hy0, hy1]
          omega
        · rw [hy1]
          exact min_le_right _ _
      · unfold keptSlices
        rw [cropSlicesAux_indices]
        exact (List.range_eq_range' _).symm
      · exact cropSlicesAux_pairwise _ 0 img.height 0 hch

/-- C6 witness: the invariants at the concrete white page. -/
theorem c6_witness :
    (∀ s ∈ sliceImage whiteImage DefaultOptions,
        s.y0 < s.y1 ∧ s.y1 ≤ whiteImage.height) ∧
      (sliceImage whiteImage DefaultOptions).map (fun s => s.index) =
        List.range (sliceImage whiteImage DefaultOptions).length ∧
      (sliceImage whiteImage DefaultOptions).Pairwise
        (fun a b => a.y0 ≤ b.y0 ∧ a.y1 ≤ b.y1) :=
  c6_sliceImage_invariants whiteImage DefaultOptions (by decide)

/-- C1.  CONFIRMED against the spec-modelled loop.  When the first
extraction yields at least one entry: the QA model is called with that
extraction; at most two extraction calls ever happen; a fail verdict with
a critical issue triggers exactly one retry, made with the retry prompt
built from the flagged issues; without a critical fail there is no retry;
and when the retry extraction also fails verification with a critical
issue, its entries are accepted with needs_review set to true on every
entry. -/
theorem c1_extract_verify_loop (extract : GoStr → Option ExtractionResult)
    (qa : ExtractionResult → Option QAResult) (e1 : ExtractionResult)
    (h1 : extract sliceExtractionPrompt = some e1) (h2 : e1.entries ≠ []) :
    ModelCall.qaCall e1 ∈ (extractAndVerifySlice extract qa).calls ∧
    countExtracts (extractAndVerifySlice extract qa).calls ≤ 2 ∧
    (∀ q1, qa e1 = some q1 → hasCriticalFail q1 = true →
      ModelCall.extractCall (buildRetryPrompt (failIssues q1)) ∈
          (extractAndVerifySlice extract qa).calls ∧
        countExtracts (extractAndVerifySlice extract qa).calls = 2) ∧
    (∀ q1, qa e1 = some q1 → ¬ hasCriticalFail q1 = true →
      countExtracts (extractAndVerifySlice extract qa).calls = 1) ∧
    (∀ q1 e2 q2, qa e1 = some q1 → hasCriticalFail q1 = true →
      extract (buildRetryPrompt (failIssues q1)) = some e2 → e2.entries ≠ [] →
      qa e2 = some q2 → hasCriticalFail q2 = true →
      (extractAndVerifySlice extract qa).entries =
          e2.entries.map (fun e => { e with needsReview := true }) ∧
        ∀ e ∈ (extractAndVerifySlice extract qa).entries, e.needsReview = true) := by
  refine ⟨?_, ?_, ?_, ?_, ?_⟩
  · unfold extractAndVerifySlice
    rw [h1]
    simp only []
    rw [if_neg h2]
    cases hq1 : qa e1 with
    | none => simp
    | some q1 =>
        simp only []
        by_cases hc : hasCriticalFail q1 = true
        · rw [if_pos hc]
          cases h3 : extract (buildRetryPrompt (failIssues q1)) with
          | none => simp
          | some e2 =>
              simp only []
              by_cases h4 : e2.entries = []
              · rw [if_pos h4]
                simp
              · rw [if_neg h4]
                cases h5 : qa e2 with
                | none => simp
                | some q2 =>
                    simp only []
                    by_cases h6 : hasCriticalFail q2 = true
                    · rw [if_pos h6]
                      simp
                    · rw [if_neg h6]
                      simp
        · rw [if_neg hc]
          simp
  · unfold extractAndVerifySlice
    rw [h1]
    simp only []
    rw [if_neg h2]
    cases hq1 : qa e1 with
    | none => simp [countExtracts]
    | some q1 =>
        simp only []
        by_cases hc : hasCriticalFail q1 = true
        · rw [if_pos hc]
          cases h3 : extract (buildRetryPrompt (failIssues q1)) with
          | none => simp [countExtracts]
          | some e2 =>
              simp only []
              by_cases h4 : e2.entries = []
              · rw [if_pos h4]
                simp [countExtracts]
              · rw [if_neg h4]
                cases h5 : qa e2 with
                | none => simp [countExtracts]
                | some q2 =>
                    simp only []
                    by_cases h6 : hasCriticalFail q2 = true
                    · rw [if_pos h6]
                      simp [countExtracts]
                    · rw [if_neg h6]
                      simp [countExtracts]
        · rw [if_neg hc]
          simp [countExtracts]
  · intro q1 hq1 hc
    unfold extractAndVerifySlice
    rw [h1]
    simp only []
    rw [if_neg h2, hq1]
    simp only []
    rw [if_pos hc]
    cases h3 : extract (buildRetryPrompt (failIssues q1)) with
    | none => exact ⟨by simp, by simp [countExtracts]⟩
    | some e2 =>
        simp only []
        by_cases h4 : e2.entries = []
        · rw [if_pos h4]
          exact ⟨by simp, by simp [countExtracts]⟩
        · rw [if_neg h4]
          cases h5 : qa e2 with
          | none => exact ⟨by simp, by simp [countExtracts]⟩
          | some q2 =>
              simp only []
              by_cases h6 : hasCriticalFail q2 = true
              · rw [if_pos h6]
                exact ⟨by simp, by simp [countExtracts]⟩
              · rw [if_neg h6]
                exact ⟨by simp, by simp [countExtracts]⟩
  · intro q1 hq1 hc
    unfold extractAndVerifySlice
    rw [h1]
    simp only []
    rw [if_neg h2, hq1]
    simp only []
    rw [if_neg hc]
    simp [countExtracts]
  · intro q1 e2 q2 hq1 hc h3 h4 h5 h6
    unfold extractAndVerifySlice
    rw [h1]
    simp only []
    rw [if_neg h2, hq1]
    simp only []
    rw [if_pos hc, h3]
    simp only []
    rw [if_neg h4, h5]
    simp only []
    rw [if_pos h6]
    refine ⟨rfl, ?_⟩
    intro e he
    simp only [List.mem_map] at he
    obtain ⟨e0, _, he0⟩ := he
    rw [← he0]

/-- C1 witness: the loop at a concrete pair of model oracles in which the
first extraction is truncated, QA fails with a critical issue, and the
retry also fails verification: two extraction calls, the retry made with
the retry prompt, and the retry entries accepted flagged for review. -/
theorem c1_witness :
    ModelCall.qaCall wE1 ∈ (extractAndVerifySlice wExtract wQa).calls ∧
      ModelCall.extractCall (buildRetryPrompt (failIssues wQ1)) ∈
        (extractAndVerifySlice wExtract wQa).calls ∧
      countExtracts (extractAndVerifySlice wExtract wQa).calls = 2 ∧
      (extractAndVerifySlice wExtract wQa).entries =
        wE2.entries.map (fun e => { e with needsReview := true }) :=
  ⟨(c1_extract_verify_loop wExtract wQa wE1 (by decide) (by decide)).1,
   ((c1_extract_verify_loop wExtract wQa wE1 (by decide) (by decide)).2.2.1 wQ1
      (by decide) (by decide)).1,
   ((c1_extract_verify_loop wExtract wQa wE1 (by decide) (by decide)).2.2.1 wQ1
      (by decide) (by decide)).2,
   ((c1_extract_verify_loop wExtract wQa wE1 (by decide) (by decide)).2.2.2.2 wQ1 wE2 wQ1
      (by decide) (by decide) (by decide) (by decide) (by decide) (by decide)).1⟩

end Logbook
